import Mathlib

/-!
Verification of the LTN backend core (`src/backend/src/lib.rs` and the design
spec of the graph/analysis subsystem).

The wasm entry points live in `lib.rs` and are embedded faithfully below
(`LTN.*` operations, including their `unwrap` panics and evaluation order).
The modules `map_model.rs`, `cells.rs`, `neighbourhood.rs`, `route.rs`,
`shortcuts.rs` and the savefile codec internals are part of the repository but
are not under `src/`; each definition taken from them is modelled from the
spec, and is marked as such in its doc comment.

Conventions of the shallow embedding: planar coordinates are exact integers
(the spec's floating tolerance collapses to exact equality), lengths are
natural numbers, road and intersection ids are positions in dense lists
(matching the dense `RoadID`/`IntersectionID` index types).
-/

/-- Modelled from the spec: the closed set of filter kinds (`FilterKind` in
`map_model.rs`, not under `src/`): "a small closed set of variants, e.g. full
closure, bus/cycle-permeable, access-point" (§3). -/
inductive FilterKind where
  | fullClosure
  | busCyclePermeable
  | accessPoint
deriving DecidableEq, Repr

/-- Modelled from the spec: `FilterKind::from_string` (`map_model.rs`, not under
`src/`), the stable-string decoding of a filter kind; unknown strings yield
`none` (and `lib.rs` unwraps the result). -/
def FilterKind.fromString : String → Option FilterKind
  | "full_closure" => some .fullClosure
  | "bus_cycle_permeable" => some .busCyclePermeable
  | "access_point" => some .accessPoint
  | _ => none

/-- Modelled from the spec: a modal filter is a kind "attached to exactly one
road, optionally with a position along the road's length" (§3). -/
structure ModalFilter where
  kind : FilterKind
  position : Option Nat
deriving DecidableEq, Repr

/-- A planar point with exact integer coordinates. -/
abbrev Pt := Int × Int

/-- Modelled from the spec: a road record (§3): ordered endpoint intersection
ids, a polyline geometry, free-form tags, a length measured along the
geometry, and an optional modal filter (at most one filter per road). The
road's id is its position in the map's dense road list. -/
structure Road where
  src : Nat
  dst : Nat
  geometry : List Pt
  length : Nat
  tags : List (String × String)
  filter : Option ModalFilter
deriving DecidableEq, Repr

/-- Modelled from the spec: the EditLog's command alphabet, an "append-only
sequence of graph-mutation commands (add filter, remove filter, batch-add
filters)" (§3). -/
inductive Command where
  | addF (r : Nat) (f : ModalFilter)
  | removeF (r : Nat)
  | batchAdd (rs : List Nat) (f : ModalFilter)
deriving DecidableEq, Repr

/-- Replace the filter stored on road `r` (no-op when `r` is out of range),
leaving every other road untouched. -/
def setFilter : List Road → Nat → Option ModalFilter → List Road
  | [], _, _ => []
  | rd :: rest, 0, of => { rd with filter := of } :: rest
  | rd :: rest, n + 1, of => rd :: setFilter rest n of

/-- The filter currently stored on road `r` (`none` when out of range). -/
def filterAt (roads : List Road) (r : Nat) : Option ModalFilter :=
  match roads[r]? with
  | some rd => rd.filter
  | none => none

/-- Modelled from the spec: the effect of one EditLog command on the live road
list (§4.1). -/
def applyCommand (roads : List Road) : Command → List Road
  | .addF r f => setFilter roads r (some f)
  | .removeF r => setFilter roads r none
  | .batchAdd rs f => rs.foldl (fun acc r => setFilter acc r (some f)) roads

/-- Modelled from the spec: replay a command sequence from a base state; undo
and redo "re-derive the live filter set by replay from the initial state"
(§4.1). -/
def replay (base : List Road) (cmds : List Command) : List Road :=
  cmds.foldl applyCommand base

/-- Modelled from the spec: the Graph Model plus its EditLog (§3): dense
intersection and road stores, the live road list (carrying the current filter
set), the initial road list replay starts from, and the command log with its
cursor. -/
structure MapModel where
  intersections : List Pt
  baseRoads : List Road
  roads : List Road
  log : List Command
  cursor : Nat
deriving DecidableEq, Repr

/-- Modelled from the spec: `MapModel::new` — the graph is "constructed once
from external map data" (§2) with no filters and an empty edit history. -/
def MapModel.init (inters : List Pt) (roads : List Road) : MapModel :=
  { intersections := inters
    baseRoads := roads
    roads := roads
    log := []
    cursor := 0 }

/-- The EditLog invariant (§3): "the state reachable by replaying commands
0..cursor from the initial state always equals the live graph's filter set",
together with the cursor staying inside the log. -/
def MapModel.Inv (mm : MapModel) : Prop :=
  mm.roads = replay mm.baseRoads (mm.log.take mm.cursor) ∧ mm.cursor ≤ mm.log.length

/-- Record a freshly applied command: truncate the undone tail of the log,
append the command, advance the cursor, and apply it to the live roads
(§4.1). -/
def MapModel.recordCommand (mm : MapModel) (c : Command) : MapModel :=
  { mm with
    roads := applyCommand mm.roads c
    log := mm.log.take mm.cursor ++ [c]
    cursor := mm.cursor + 1 }

/-- Modelled from the spec: `addFilter(roadId, kind, position?)` (§4.1) fails
with `InvalidRoad` on an unknown id; otherwise (also when replacing an
existing filter — "replacing is allowed and recorded as its own command") it
records and applies the command. -/
def MapModel.addFilter (mm : MapModel) (r : Nat) (f : ModalFilter) : Option MapModel :=
  if r < mm.roads.length then some (mm.recordCommand (.addF r f)) else none

/-- Modelled from the spec: `removeFilter(roadId)` "clears the filter if
present, else is a no-op (not an error)" (§4.1). -/
def MapModel.removeFilter (mm : MapModel) (r : Nat) : MapModel :=
  match filterAt mm.roads r with
  | some _ => mm.recordCommand (.removeF r)
  | none => mm

/-- Modelled from the spec: `undo()` — "move the EditLog cursor one step and
re-derive the live filter set by replay from the initial state"; "calling undo
at the start of history ... is a no-op, not an error" (§4.1). -/
def MapModel.undo (mm : MapModel) : MapModel :=
  if mm.cursor = 0 then mm
  else
    { mm with
      cursor := mm.cursor - 1
      roads := replay mm.baseRoads (mm.log.take (mm.cursor - 1)) }

/-- Modelled from the spec: `redo()` — step the cursor forward and re-derive
by replay; "redo at the end is a no-op, not an error" (§4.1). -/
def MapModel.redo (mm : MapModel) : MapModel :=
  if mm.cursor = mm.log.length then mm
  else
    { mm with
      cursor := mm.cursor + 1
      roads := replay mm.baseRoads (mm.log.take (mm.cursor + 1)) }

/-- Twice the signed area of a triangle `p q r`; the standard orientation
test used by the geometric predicates below. -/
def orient (p q r : Pt) : Int :=
  (q.1 - p.1) * (r.2 - p.2) - (q.2 - p.2) * (r.1 - p.1)

/-- Whether `q` lies on the closed axis-aligned bounding box of segment
`p`–`r` (used for the collinear case of segment intersection). -/
def onSegBox (p q r : Pt) : Bool :=
  min p.1 r.1 ≤ q.1 && q.1 ≤ max p.1 r.1 && min p.2 r.2 ≤ q.2 && q.2 ≤ max p.2 r.2

/-- Exact segment–segment intersection test (proper crossings plus collinear
overlap cases), over integer coordinates. -/
def segsIntersect (p1 p2 q1 q2 : Pt) : Bool :=
  let o1 := orient p1 p2 q1
  let o2 := orient p1 p2 q2
  let o3 := orient q1 q2 p1
  let o4 := orient q1 q2 p2
  ((o1 > 0 && o2 < 0 || o1 < 0 && o2 > 0) && (o3 > 0 && o4 < 0 || o3 < 0 && o4 > 0))
    || (o1 = 0 && onSegBox p1 q1 p2) || (o2 = 0 && onSegBox p1 q2 p2)
    || (o3 = 0 && onSegBox q1 p1 q2) || (o4 = 0 && onSegBox q1 p2 q2)

/-- The consecutive segments of a polyline. -/
def segments : List Pt → List (Pt × Pt)
  | a :: b :: rest => (a, b) :: segments (b :: rest)
  | _ => []

/-- Whether two polylines intersect: some segment of one crosses some segment
of the other. -/
def polylinesIntersect (l1 l2 : List Pt) : Bool :=
  (segments l1).any fun s1 => (segments l2).any fun s2 =>
    segsIntersect s1.1 s1.2 s2.1 s2.2

/-- Squared distance between two points. -/
def dist2 (p q : Pt) : Int :=
  (p.1 - q.1) * (p.1 - q.1) + (p.2 - q.2) * (p.2 - q.2)

/-- Squared distance from a point to a closed segment, as an exact rational
`(numerator, positive denominator)` pair. -/
def segDist2 (p a b : Pt) : Int × Int :=
  let ab : Pt := (b.1 - a.1, b.2 - a.2)
  let ap : Pt := (p.1 - a.1, p.2 - a.2)
  let tden := ab.1 * ab.1 + ab.2 * ab.2
  let tnum := ap.1 * ab.1 + ap.2 * ab.2
  if tden = 0 then (dist2 p a, 1)
  else if tnum ≤ 0 then (dist2 p a, 1)
  else if tden ≤ tnum then (dist2 p b, 1)
  else
    let cr := ab.1 * ap.2 - ab.2 * ap.1
    (cr * cr, tden)

/-- Comparison of two exact nonnegative rationals given as
`(numerator, positive denominator)` pairs. -/
def ratLe (x y : Int × Int) : Bool :=
  x.1 * y.2 ≤ y.1 * x.2

/-- Squared distance from a point to a polyline (`none` for an empty or
single-point polyline with no segments, except a lone vertex which measures
to that vertex). -/
def polylineDist2 (p : Pt) (l : List Pt) : Option (Int × Int) :=
  match l with
  | [] => none
  | [a] => some (dist2 p a, 1)
  | _ =>
    (segments l).foldl
      (fun acc s =>
        let d := segDist2 p s.1 s.2
        match acc with
        | none => some d
        | some b => if ratLe b d then some b else some d)
      none

/-- Modelled from the spec: the road-search part of
`MapModel::add_modal_filter` (`map_model.rs`, not under `src/`): snap the
request point to the nearest eligible interior road, measuring exact squared
distance to the road's polyline geometry. -/
def snapToRoad (pt : Pt) (interior : List Nat) (roads : List Road) : Option Nat :=
  interior.foldl
    (fun best r =>
      match polylineDist2 pt (match roads[r]? with | some rd => rd.geometry | none => []) with
      | none => best
      | some d =>
        match best with
        | none => some (r, d)
        | some (r0, d0) => if ratLe d0 d then some (r0, d0) else some (r, d))
    none
  |>.map Prod.fst

/-- Modelled from the spec: `MapModel::add_modal_filter` (`map_model.rs`, not
under `src/`): place a filter of the given kind on the interior road nearest
to the request point, recording it as one EditLog command; with no snappable
road the map is unchanged (the wasm wrapper surfaces no error here, matching
the infallible call in `lib.rs`). -/
def MapModel.addFilterAtPoint (mm : MapModel) (pt : Pt) (interior : List Nat)
    (k : FilterKind) : MapModel :=
  match snapToRoad pt interior mm.roads with
  | some r => mm.recordCommand (.addF r { kind := k, position := none })
  | none => mm

/-- The interior roads crossed by a drawn linestring: those whose polyline
geometry intersects it. -/
def roadsCrossed (line : List Pt) (interior : List Nat) (roads : List Road) : List Nat :=
  interior.filter fun r =>
    match roads[r]? with
    | some rd => polylinesIntersect rd.geometry line
    | none => false

/-- Modelled from the spec: `MapModel::add_many_modal_filters` (`map_model.rs`,
not under `src/`): "finds every road intersected by a drawn line and applies a
filter to each in a single batch command (atomic for undo purposes)" (§4.1). -/
def MapModel.addManyFilters (mm : MapModel) (line : List Pt) (interior : List Nat)
    (k : FilterKind) : MapModel :=
  mm.recordCommand (.batchAdd (roadsCrossed line interior mm.roads) { kind := k, position := none })

/-- Twice the signed (shoelace) area of a polygon given as a vertex ring. -/
def shoelace2 (poly : List Pt) : Int :=
  (segments (poly ++ poly.take 1)).foldl
    (fun acc s => acc + (s.1.1 * s.2.2 - s.2.1 * s.1.2)) 0

/-- Modelled from the spec: polygon validity for boundaries (§4.2 rejects
a "degenerate (zero area ...)" polygon); self-intersection is not modelled. -/
def polygonValid (poly : List Pt) : Bool :=
  3 ≤ poly.length && shoelace2 poly ≠ 0

/-- Whether the horizontal ray from `pt` crosses the edge `a`–`b`
(half-open rule on the `y` interval, exact integer arithmetic). -/
def edgeCrossesRay (pt a b : Pt) : Bool :=
  (decide (a.2 ≤ pt.2) != decide (b.2 ≤ pt.2)) &&
    (let lhs := (pt.1 - a.1) * (b.2 - a.2)
     let rhs := (b.1 - a.1) * (pt.2 - a.2)
     if b.2 - a.2 > 0 then lhs < rhs else rhs < lhs)

/-- Modelled from the spec: point-in-polygon by ray-casting parity, used by
the Neighbourhood Selector's interiority rule (§4.2). -/
def pointInPolygon (pt : Pt) (poly : List Pt) : Bool :=
  (segments (poly ++ poly.take 1)).foldl
    (fun acc s => if edgeCrossesRay pt s.1 s.2 then !acc else acc) false

/-- Modelled from the spec: the Neighbourhood (§3): the boundary polygon plus
the derived interior and boundary road id sets. -/
structure Neighbourhood where
  boundary : List Pt
  interiorRoads : List Nat
  boundaryRoads : List Nat
deriving DecidableEq, Repr

/-- Whether intersection `i` of the map lies inside the polygon (§4.2: "an
intersection is interior if it lies within the polygon"). -/
def interIsInside (mm : MapModel) (poly : List Pt) (i : Nat) : Bool :=
  match mm.intersections[i]? with
  | some p => pointInPolygon p poly
  | none => false

/-- The interior road ids for a boundary polygon (§4.2: "a road is interior
only if both endpoints are interior"). -/
def interiorRoadIds (mm : MapModel) (poly : List Pt) : List Nat :=
  (List.range mm.roads.length).filter fun r =>
    match mm.roads[r]? with
    | some rd => interIsInside mm poly rd.src && interIsInside mm poly rd.dst
    | none => false

/-- The boundary road ids: "Roads with exactly one interior endpoint are
'boundary roads'" (§4.2). -/
def boundaryRoadIds (mm : MapModel) (poly : List Pt) : List Nat :=
  (List.range mm.roads.length).filter fun r =>
    match mm.roads[r]? with
    | some rd => interIsInside mm poly rd.src != interIsInside mm poly rd.dst
    | none => false

/-- Modelled from the spec: `Neighbourhood::new` / `classify(graph,
boundaryPolygon)` (§4.2, `neighbourhood.rs` not under `src/`): reject a
degenerate polygon with `InvalidBoundary`, else derive the road
classification. -/
def Neighbourhood.new (mm : MapModel) (poly : List Pt) : Option Neighbourhood :=
  if polygonValid poly then
    some
      { boundary := poly
        interiorRoads := interiorRoadIds mm poly
        boundaryRoads := boundaryRoadIds mm poly }
  else none

/-- One saturation step of the flood fill used by the Cell Partitioner and the
connectivity analyses: add every vertex of `verts` adjacent to the current
set. -/
def closeStep (adj : Nat → Nat → Bool) (verts : List Nat) (s : List Nat) : List Nat :=
  s ++ verts.filter fun v => !s.contains v && s.any fun u => adj u v

/-- Iterate the saturation step. -/
def iterClose (adj : Nat → Nat → Bool) (verts : List Nat) (s : List Nat) : Nat → List Nat
  | 0 => s
  | k + 1 => closeStep adj verts (iterClose adj verts s k)

/-- The executable set of vertices reachable from `a` through `adj`-edges whose
targets lie in `verts` (breadth-first saturation, §4.3). -/
def reachList (adj : Nat → Nat → Bool) (verts : List Nat) (a : Nat) : List Nat :=
  iterClose adj verts [a] (verts.length + 1)

/-- Decidable reachability through `adj`-edges into `verts`. -/
def reachableB (adj : Nat → Nat → Bool) (verts : List Nat) (a b : Nat) : Bool :=
  decide (b ∈ reachList adj verts a)

/-- The propositional counterpart of `reachableB`: a chain of `adj`-steps from
`a`, each landing in `verts`. -/
inductive Reaches (adj : Nat → Nat → Bool) (verts : List Nat) : Nat → Nat → Prop
  | refl (a : Nat) : Reaches adj verts a a
  | tail {a b c : Nat} : Reaches adj verts a b → adj b c = true → c ∈ verts →
      Reaches adj verts a c

theorem Reaches.trans {adj verts} {a b c : Nat} (h1 : Reaches adj verts a b)
    (h2 : Reaches adj verts b c) : Reaches adj verts a c := by
  induction h2 with
  | refl => exact h1
  | tail _ hbc hc ih => exact .tail ih hbc hc

theorem Reaches.mem_or_eq {adj verts} {a b : Nat} (h : Reaches adj verts a b) :
    b = a ∨ b ∈ verts := by
  cases h with
  | refl => exact .inl rfl
  | tail _ _ hc => exact .inr hc

theorem Reaches.symm_of {adj verts} (hsym : ∀ u v, adj u v = adj v u) {a b : Nat}
    (ha : a ∈ verts) (h : Reaches adj verts a b) : Reaches adj verts b a := by
  induction h with
  | refl => exact .refl _
  | @tail b c hab hadj hc ih =>
    have hb : b ∈ verts := by
      rcases Reaches.mem_or_eq hab with rfl | hb
      · exact ha
      · exact hb
    have hcb : Reaches adj verts c b := .tail (.refl c) (by rw [hsym]; exact hadj) hb
    exact hcb.trans ih

theorem closeStep_subset {adj verts s} : s ⊆ closeStep adj verts s := by
  intro x hx; exact List.mem_append_left _ hx

theorem iterClose_subset {adj verts s} : ∀ k, s ⊆ iterClose adj verts s k
  | 0 => fun _ h => h
  | k + 1 => fun _ hx => closeStep_subset (iterClose_subset k hx)

theorem mem_closeStep_sound {adj verts s a} (hs : ∀ x ∈ s, Reaches adj verts a x) :
    ∀ x ∈ closeStep adj verts s, Reaches adj verts a x := by
  intro x hx
  rcases List.mem_append.1 hx with h | h
  · exact hs x h
  · rcases List.mem_filter.1 h with ⟨hv, hcond⟩
    simp only [Bool.and_eq_true, List.any_eq_true] at hcond
    rcases hcond.2 with ⟨u, hu, hadj⟩
    exact .tail (hs u hu) hadj hv

theorem iterClose_sound {adj verts s a} (hs : ∀ x ∈ s, Reaches adj verts a x) :
    ∀ k, ∀ x ∈ iterClose adj verts s k, Reaches adj verts a x
  | 0 => hs
  | k + 1 => mem_closeStep_sound (iterClose_sound hs k)

/-- Soundness of the flood fill: every listed vertex is genuinely reachable. -/
theorem reachList_sound {adj verts a} : ∀ x ∈ reachList adj verts a, Reaches adj verts a x := by
  have hbase : ∀ x ∈ [a], Reaches adj verts a x := by
    intro x hx
    have hxa : x = a := List.mem_singleton.1 hx
    subst hxa
    exact .refl x
  exact iterClose_sound hbase _

/-- A fixed point of `closeStep` is closed under one more adjacency step. -/
theorem closeStep_fixed_closed {adj verts s} (hfix : closeStep adj verts s = s)
    {b c : Nat} (hb : b ∈ s) (hadj : adj b c = true) (hc : c ∈ verts) : c ∈ s := by
  by_contra hcs
  have hmem : c ∈ verts.filter fun v => !s.contains v && s.any fun u => adj u v := by
    refine List.mem_filter.2 ⟨hc, ?_⟩
    simp only [Bool.and_eq_true, List.any_eq_true, Bool.not_eq_true']
    exact ⟨by simpa using hcs, b, hb, hadj⟩
  have hmem2 : c ∈ closeStep adj verts s := List.mem_append_right _ hmem
  rw [hfix] at hmem2
  exact hcs hmem2

theorem closeStep_eq_of_no_growth {adj verts s}
    (h : (closeStep adj verts s).length = s.length) : closeStep adj verts s = s := by
  have hlen : s.length + (verts.filter fun v => !s.contains v && s.any fun u => adj u v).length
      = s.length := by simpa [closeStep] using h
  have hnil : (verts.filter fun v => !s.contains v && s.any fun u => adj u v) = [] :=
    List.length_eq_zero.1 (by omega)
  unfold closeStep
  rw [hnil, List.append_nil]

theorem iterClose_fixed_after {adj verts s} (k : Nat)
    (hfix : closeStep adj verts (iterClose adj verts s k) = iterClose adj verts s k) :
    ∀ m, iterClose adj verts s (k + m) = iterClose adj verts s k := by
  intro m
  induction m with
  | zero => rfl
  | succ m ih =>
    have hm : k + (m + 1) = (k + m) + 1 := by omega
    rw [hm]
    show closeStep adj verts (iterClose adj verts s (k + m)) = _
    rw [ih, hfix]

theorem closeStep_nodup {adj verts s} (hv : verts.Nodup) (hs : s.Nodup) :
    (closeStep adj verts s).Nodup := by
  refine List.Nodup.append hs (List.Nodup.filter _ hv) ?_
  intro x hxs hxf
  rcases List.mem_filter.1 hxf with ⟨_, hcond⟩
  simp only [Bool.and_eq_true, Bool.not_eq_true'] at hcond
  exact absurd hxs (by simpa using hcond.1)

theorem iterClose_nodup {adj verts s} (hv : verts.Nodup) (hs : s.Nodup) :
    ∀ k, (iterClose adj verts s k).Nodup
  | 0 => hs
  | k + 1 => closeStep_nodup hv (iterClose_nodup hv hs k)

theorem iterClose_sub {adj verts a} :
    ∀ k, ∀ x ∈ iterClose adj verts [a] k, x = a ∨ x ∈ verts := by
  intro k
  induction k with
  | zero =>
    intro x hx
    exact .inl (List.mem_singleton.1 hx)
  | succ k ih =>
    intro x hx
    rcases List.mem_append.1 hx with hxs | hxf
    · exact ih x hxs
    · exact .inr (List.mem_filter.1 hxf).1

theorem iterClose_length_le {adj verts a} (hv : verts.Nodup) (k : Nat) :
    (iterClose adj verts [a] k).length ≤ verts.length + 1 := by
  classical
  have hnd : (iterClose adj verts [a] k).Nodup :=
    iterClose_nodup hv (List.nodup_singleton a) k
  have hsub : (iterClose adj verts [a] k).toFinset ⊆ (a :: verts).toFinset := by
    intro x hx
    rw [List.mem_toFinset] at hx ⊢
    rcases iterClose_sub k x hx with rfl | h
    · exact List.mem_cons_self _ _
    · exact List.mem_cons_of_mem _ h
  calc (iterClose adj verts [a] k).length
      = (iterClose adj verts [a] k).toFinset.card := (List.toFinset_card_of_nodup hnd).symm
    _ ≤ (a :: verts).toFinset.card := Finset.card_le_card hsub
    _ ≤ (a :: verts).length := List.toFinset_card_le _
    _ = verts.length + 1 := by simp

theorem iterClose_length_grow {adj verts a} :
    ∀ k, (∀ j, j < k → closeStep adj verts (iterClose adj verts [a] j) ≠ iterClose adj verts [a] j) →
    k + 1 ≤ (iterClose adj verts [a] k).length := by
  intro k
  induction k with
  | zero => intro _; simp [iterClose]
  | succ k ih =>
    intro h
    have hk := ih fun j hj => h j (by omega)
    have hne := h k (by omega)
    have hge : (iterClose adj verts [a] k).length ≤
        (closeStep adj verts (iterClose adj verts [a] k)).length := by
      simp [closeStep]
    have hne2 : (closeStep adj verts (iterClose adj verts [a] k)).length ≠
        (iterClose adj verts [a] k).length := fun heq => hne (closeStep_eq_of_no_growth heq)
    show k + 1 + 1 ≤ (closeStep adj verts (iterClose adj verts [a] k)).length
    omega

/-- The flood fill saturates within its fuel budget: `reachList` is a fixed
point of the closure step. -/
theorem reachList_fixed {adj verts a} (hv : verts.Nodup) :
    closeStep adj verts (reachList adj verts a) = reachList adj verts a := by
  by_cases h : ∃ j, j < verts.length + 1 ∧
      closeStep adj verts (iterClose adj verts [a] j) = iterClose adj verts [a] j
  · rcases h with ⟨j, hj, hfix⟩
    have h1 : iterClose adj verts [a] (j + (verts.length + 1 - j)) = iterClose adj verts [a] j :=
      iterClose_fixed_after j hfix _
    have h2 : j + (verts.length + 1 - j) = verts.length + 1 := by omega
    rw [h2] at h1
    show closeStep adj verts (iterClose adj verts [a] (verts.length + 1))
      = iterClose adj verts [a] (verts.length + 1)
    rw [h1]
    exact hfix
  · push_neg at h
    have hgrow := iterClose_length_grow (verts.length + 1) fun j hj => h j hj
    have hle := @iterClose_length_le adj verts a hv (verts.length + 1)
    omega

/-- Completeness of the flood fill: every reachable vertex is listed. -/
theorem reachList_complete {adj verts a} (hv : verts.Nodup) {b : Nat}
    (h : Reaches adj verts a b) : b ∈ reachList adj verts a := by
  induction h with
  | refl => exact iterClose_subset _ (List.mem_singleton.2 rfl)
  | tail hab hadj hc ih => exact closeStep_fixed_closed (reachList_fixed hv) ih hadj hc

/-- The executable reachability test agrees with the inductive reachability
relation on duplicate-free vertex sets. -/
theorem reachableB_iff {adj verts} (hv : verts.Nodup) {a b : Nat} :
    reachableB adj verts a b = true ↔ Reaches adj verts a b := by
  constructor
  · intro h
    exact reachList_sound b (by simpa [reachableB] using h)
  · intro h
    simpa [reachableB] using reachList_complete hv h

/-- Whether two roads of the map touch at an intersection (share an endpoint
id). -/
def endpointsTouch (a b : Road) : Bool :=
  decide (a.src = b.src) || decide (a.src = b.dst) ||
    decide (a.dst = b.src) || decide (a.dst = b.dst)

theorem endpointsTouch_symm (a b : Road) : endpointsTouch a b = endpointsTouch b a := by
  rw [Bool.eq_iff_iff]
  simp only [endpointsTouch, Bool.or_eq_true, decide_eq_true_eq]
  tauto

/-- Whether roads `r1` and `r2` share an endpoint intersection. -/
def sharesEndpoint (roads : List Road) (r1 r2 : Nat) : Bool :=
  match roads[r1]?, roads[r2]? with
  | some a, some b => endpointsTouch a b
  | _, _ => false

theorem sharesEndpoint_symm (roads : List Road) (r1 r2 : Nat) :
    sharesEndpoint roads r1 r2 = sharesEndpoint roads r2 r1 := by
  unfold sharesEndpoint
  cases roads[r1]? <;> cases roads[r2]? <;> simp [endpointsTouch_symm]

/-- Whether road `r` carries a filter that blocks the analyzed travel mode
(§4.3: which kinds count as blocking varies with the mode). -/
def blockedRoad (roads : List Road) (blocking : FilterKind → Bool) (r : Nat) : Bool :=
  match filterAt roads r with
  | some f => blocking f.kind
  | none => false

/-- Modelled from the spec: the traversability relation of the Cell
Partitioner (§4.3, `cells.rs` not under `src/`): two roads are directly
connected when neither carries a blocking filter and they meet at an
intersection. -/
def roadAdj (roads : List Road) (blocking : FilterKind → Bool) (r1 r2 : Nat) : Bool :=
  !blockedRoad roads blocking r1 && !blockedRoad roads blocking r2 &&
    sharesEndpoint roads r1 r2

theorem roadAdj_symm (roads : List Road) (blocking : FilterKind → Bool) (r1 r2 : Nat) :
    roadAdj roads blocking r1 r2 = roadAdj roads blocking r2 r1 := by
  unfold roadAdj
  rw [sharesEndpoint_symm]
  cases blockedRoad roads blocking r1 <;> cases blockedRoad roads blocking r2 <;> simp

/-- Modelled from the spec: the cell containing road `r` — every interior road
reachable from `r` without crossing a blocking filter (§4.3). -/
def cellOf (roads : List Road) (blocking : FilterKind → Bool) (interior : List Nat)
    (r : Nat) : List Nat :=
  interior.filter (reachableB (roadAdj roads blocking) interior r)

/-- Modelled from the spec: `computeCells(graph, neighbourhood)` (§4.3,
`cells.rs` not under `src/`): the connected-component partition of the
interior roads under the current filter set, one cell per component. -/
def computeCells (roads : List Road) (blocking : FilterKind → Bool)
    (interior : List Nat) : List (List Nat) :=
  (interior.map (cellOf roads blocking interior)).dedup

/-- A filter-respecting road sequence: consecutive roads meet at an
intersection and every road on it is interior and unblocked (the claim's
"filter-respecting path"). -/
def IsFilterPath (roads : List Road) (blocking : FilterKind → Bool)
    (interior : List Nat) (p : List Nat) : Prop :=
  List.Chain' (fun r1 r2 => sharesEndpoint roads r1 r2 = true) p ∧
    ∀ r ∈ p, r ∈ interior ∧ blockedRoad roads blocking r = false

/-- Two roads are connected by a filter-respecting path: either equal, or there
is a filter-respecting road sequence from one to the other. -/
def ConnectsVia (roads : List Road) (blocking : FilterKind → Bool)
    (interior : List Nat) (r1 r2 : Nat) : Prop :=
  r1 = r2 ∨ ∃ p, p.head? = some r1 ∧ p.getLast? = some r2 ∧
    IsFilterPath roads blocking interior p

theorem roadAdj_parts {roads blocking} {r1 r2 : Nat}
    (h : roadAdj roads blocking r1 r2 = true) :
    blockedRoad roads blocking r1 = false ∧ blockedRoad roads blocking r2 = false ∧
      sharesEndpoint roads r1 r2 = true := by
  simp only [roadAdj, Bool.and_eq_true, Bool.not_eq_true'] at h
  tauto

theorem reachableB_self {adj verts} (a : Nat) : reachableB adj verts a a = true := by
  simp only [reachableB, decide_eq_true_eq]
  exact iterClose_subset _ (List.mem_singleton.2 rfl)

theorem mem_cellOf {roads blocking interior} {r x : Nat} :
    x ∈ cellOf roads blocking interior r ↔
      x ∈ interior ∧ reachableB (roadAdj roads blocking) interior r x = true := by
  simp [cellOf, List.mem_filter]

theorem cellOf_eq_of_reach {roads blocking interior} (hv : List.Nodup interior)
    {r r' : Nat} (hr' : r' ∈ interior)
    (h : Reaches (roadAdj roads blocking) interior r' r) :
    cellOf roads blocking interior r' = cellOf roads blocking interior r := by
  unfold cellOf
  apply List.filter_congr
  intro x _
  rw [Bool.eq_iff_iff, reachableB_iff hv, reachableB_iff hv]
  constructor
  · intro hx
    exact (Reaches.symm_of (roadAdj_symm roads blocking) hr' h).trans hx
  · intro hx
    exact h.trans hx

theorem cellOf_mem_cells {roads blocking interior} {r : Nat} (hr : r ∈ interior) :
    cellOf roads blocking interior r ∈ computeCells roads blocking interior := by
  exact List.mem_dedup.2 (List.mem_map_of_mem _ hr)

theorem mem_cells_elim {roads blocking interior} {c : List Nat}
    (hc : c ∈ computeCells roads blocking interior) :
    ∃ r0 ∈ interior, c = cellOf roads blocking interior r0 := by
  rcases List.mem_map.1 (List.mem_dedup.1 hc) with ⟨r0, hr0, hmap⟩
  exact ⟨r0, hr0, hmap.symm⟩

theorem cell_unique {roads blocking interior} (hv : List.Nodup interior) {c : List Nat}
    {r : Nat} (hc : c ∈ computeCells roads blocking interior) (hrc : r ∈ c) :
    c = cellOf roads blocking interior r := by
  rcases mem_cells_elim hc with ⟨r0, hr0, rfl⟩
  rcases mem_cellOf.1 hrc with ⟨_, hreach⟩
  exact cellOf_eq_of_reach hv hr0 ((reachableB_iff hv).1 hreach)

theorem filterPath_reaches {roads blocking interior} :
    ∀ p : List Nat, ∀ r1 r2 : Nat, p.head? = some r1 → p.getLast? = some r2 →
      IsFilterPath roads blocking interior p →
      Reaches (roadAdj roads blocking) interior r1 r2 := by
  intro p
  induction p with
  | nil => intro r1 r2 hh _ _; simp at hh
  | cons r rest ih =>
    intro r1 r2 hh hl hp
    have hr1 : r = r1 := by simpa using hh
    subst hr1
    match rest, hl with
    | [], hl =>
      have : r = r2 := by simpa using hl
      subst this
      exact .refl r
    | s :: t, hl =>
      have hl2 : (s :: t).getLast? = some r2 := by
        simpa [List.getLast?_cons_cons] using hl
      rcases hp with ⟨hchain, hmem⟩
      have hchain2 : List.Chain' (fun a b => sharesEndpoint roads a b = true) (s :: t) :=
        hchain.tail
      have hRrs : sharesEndpoint roads r s = true := by
        rcases hchain with _ | ⟨hrel, _⟩
        · exact hrel
      have hrest : IsFilterPath roads blocking interior (s :: t) :=
        ⟨hchain2, fun x hx => hmem x (List.mem_cons_of_mem _ hx)⟩
      have hstep : Reaches (roadAdj roads blocking) interior r s := by
        refine .tail (.refl r) ?_ (hmem s (by simp)).1
        simp only [roadAdj, Bool.and_eq_true, Bool.not_eq_true']
        exact ⟨⟨(hmem r (by simp)).2, (hmem s (by simp)).2⟩, hRrs⟩
      exact hstep.trans (ih s r2 rfl hl2 hrest)

theorem reaches_connectsVia {roads blocking interior} {r1 r2 : Nat} (hr1 : r1 ∈ interior)
    (h : Reaches (roadAdj roads blocking) interior r1 r2) :
    ConnectsVia roads blocking interior r1 r2 := by
  induction h with
  | refl => exact .inl rfl
  | @tail b c hab hadj hc ih =>
    rcases roadAdj_parts hadj with ⟨hbb, hbc, hshare⟩
    rcases ih with rfl | ⟨p, hh, hl, hchain, hmem⟩
    · refine .inr ⟨[r1, c], rfl, by simp, ?_, ?_⟩
      · exact List.chain'_pair.2 hshare
      · intro x hx
        rcases List.mem_cons.1 hx with rfl | hx2
        · exact ⟨hr1, hbb⟩
        · rcases List.mem_singleton.1 hx2 with rfl
          exact ⟨hc, hbc⟩
    · have hpne : p ≠ [] := by
        intro hnil; rw [hnil] at hh; simp at hh
      refine .inr ⟨p ++ [c], ?_, ?_, ?_, ?_⟩
      · rcases p with _ | ⟨x, xs⟩
        · exact absurd rfl hpne
        · simpa using hh
      · simp
      · rw [List.chain'_append]
        refine ⟨hchain, List.chain'_singleton c, ?_⟩
        intro x hx y hy
        rw [hl] at hx
        have hxb : b = x := by simpa using hx
        have hyc : c = y := by simpa using hy
        subst hxb; subst hyc
        exact hshare
      · intro x hx
        rcases List.mem_append.1 hx with hx1 | hx2
        · exact hmem x hx1
        · rcases List.mem_singleton.1 hx2 with rfl
          exact ⟨hc, hbc⟩

theorem connectsVia_reaches {roads blocking interior} {r1 r2 : Nat}
    (h : ConnectsVia roads blocking interior r1 r2) :
    Reaches (roadAdj roads blocking) interior r1 r2 := by
  rcases h with rfl | ⟨p, hh, hl, hp⟩
  · exact .refl r1
  · exact filterPath_reaches p r1 r2 hh hl hp

/-- Add a weight to an optional distance (`none` is unreachable). -/
def oplus (x : Option Nat) (w : Nat) : Option Nat :=
  x.map (· + w)

/-- Minimum of two optional distances (`none` is infinity). -/
def omin : Option Nat → Option Nat → Option Nat
  | none, y => y
  | some a, none => some a
  | some a, some b => some (min a b)

/-- The order on optional distances: `x` is at most `y` when every finite value
of `y` is matched by a finite value of `x` that is no larger. -/
def ole (x y : Option Nat) : Prop :=
  ∀ m, y = some m → ∃ k, x = some k ∧ k ≤ m

theorem ole_refl (x : Option Nat) : ole x x :=
  fun m hm => ⟨m, hm, Nat.le_refl m⟩

theorem ole_trans {x y z : Option Nat} (h1 : ole x y) (h2 : ole y z) : ole x z := by
  intro m hm
  rcases h2 m hm with ⟨k, hk, hkm⟩
  rcases h1 k hk with ⟨j, hj, hjk⟩
  exact ⟨j, hj, Nat.le_trans hjk hkm⟩

theorem ole_omin_left (x y : Option Nat) : ole (omin x y) x := by
  intro m hm
  cases x with
  | none => cases hm
  | some a =>
    cases hm
    cases y with
    | none => exact ⟨m, rfl, Nat.le_refl m⟩
    | some b => exact ⟨min m b, rfl, Nat.min_le_left m b⟩

theorem ole_omin_mono {x y u v : Option Nat} (h1 : ole x u) (h2 : ole y v) :
    ole (omin x y) (omin u v) := by
  intro m hm
  cases u with
  | none =>
    cases v with
    | none => cases hm
    | some b =>
      cases hm
      rcases h2 m rfl with ⟨k, hk, hkm⟩
      cases x with
      | none =>
        rw [show omin none y = y from rfl, hk]
        exact ⟨k, rfl, hkm⟩
      | some a =>
        rw [hk]
        exact ⟨min a k, rfl, Nat.le_trans (Nat.min_le_right a k) hkm⟩
  | some a =>
    cases v with
    | none =>
      cases hm
      rcases h1 m rfl with ⟨k, hk, hkm⟩
      cases y with
      | none =>
        rw [hk]
        exact ⟨k, rfl, hkm⟩
      | some c =>
        rw [hk]
        exact ⟨min k c, rfl, Nat.le_trans (Nat.min_le_left k c) hkm⟩
    | some b =>
      cases hm
      rcases h1 a rfl with ⟨k, hk, hka⟩
      rcases h2 b rfl with ⟨j, hj, hjb⟩
      rw [hk, hj]
      refine ⟨min k j, rfl, Nat.le_min.2 ⟨?_, ?_⟩⟩
      · exact Nat.le_trans (Nat.min_le_left k j) hka
      · exact Nat.le_trans (Nat.min_le_right k j) hjb

theorem ole_oplus_mono {x u : Option Nat} (h : ole x u) (w : Nat) :
    ole (oplus x w) (oplus u w) := by
  intro m hm
  cases u with
  | none => cases hm
  | some a =>
    have : m = a + w := by simpa [oplus] using hm.symm
    subst this
    rcases h a rfl with ⟨k, hk, hka⟩
    exact ⟨k + w, by simp [oplus, hk], Nat.add_le_add_right hka w⟩

/-- Pointwise order on distance tables. -/
def DLe (d e : Nat → Option Nat) : Prop :=
  ∀ v, ole (d v) (e v)

theorem DLe_refl (d : Nat → Option Nat) : DLe d d :=
  fun v => ole_refl (d v)

theorem DLe_trans {d e f : Nat → Option Nat} (h1 : DLe d e) (h2 : DLe e f) : DLe d f :=
  fun v => ole_trans (h1 v) (h2 v)

/-- Relax the directed edge `u → v` of weight `w` in a distance table. -/
def improve (d : Nat → Option Nat) (u v w : Nat) : Nat → Option Nat :=
  fun x => if x = v then omin (d v) (oplus (d u) w) else d x

/-- Relax a road in both directions (roads are bidirectional for the driving
analysis, §3). -/
def relaxRoad (d : Nat → Option Nat) (rd : Road) : Nat → Option Nat :=
  improve (improve d rd.src rd.dst rd.length) rd.dst rd.src rd.length

/-- Relax every road once. -/
def relaxAll (roads : List Road) (d : Nat → Option Nat) : Nat → Option Nat :=
  roads.foldl relaxRoad d

/-- Modelled from the spec: the Router's shortest-distance table (§4.4,
`route.rs` not under `src/`): `k` rounds of edge relaxation from the source
(a Bellman–Ford formulation of the non-negative-weight search; the returned
path is abstracted to its measured length). -/
def bellman (roads : List Road) (src : Nat) : Nat → (Nat → Option Nat)
  | 0 => fun x => if x = src then some 0 else none
  | k + 1 => relaxAll roads (bellman roads src k)

theorem improve_ole_self (d : Nat → Option Nat) (u v w : Nat) :
    DLe (improve d u v w) d := by
  intro x
  unfold improve
  by_cases hx : x = v
  · rw [if_pos hx, hx]
    exact ole_omin_left _ _
  · rw [if_neg hx]
    exact ole_refl _

theorem improve_mono {d e : Nat → Option Nat} (h : DLe d e) (u v w : Nat) :
    DLe (improve d u v w) (improve e u v w) := by
  intro x
  unfold improve
  by_cases hx : x = v
  · rw [if_pos hx, if_pos hx]
    exact ole_omin_mono (h v) (ole_oplus_mono (h u) w)
  · rw [if_neg hx, if_neg hx]
    exact h x

theorem relaxRoad_ole_self (d : Nat → Option Nat) (rd : Road) :
    DLe (relaxRoad d rd) d :=
  DLe_trans (improve_ole_self _ _ _ _) (improve_ole_self _ _ _ _)

theorem relaxRoad_mono {d e : Nat → Option Nat} (h : DLe d e) (rd : Road) :
    DLe (relaxRoad d rd) (relaxRoad e rd) :=
  improve_mono (improve_mono h _ _ _) _ _ _

theorem relaxAll_mono_sublist {l1 l2 : List Road} (hsub : l1.Sublist l2) :
    ∀ {d e : Nat → Option Nat}, DLe d e → DLe (relaxAll l2 d) (relaxAll l1 e) := by
  induction hsub with
  | slnil => intro d e h; exact h
  | cons a _ ih =>
    intro d e h
    show DLe (relaxAll _ (relaxRoad d a)) (relaxAll _ e)
    exact ih (DLe_trans (relaxRoad_ole_self d a) h)
  | cons₂ a _ ih =>
    intro d e h
    show DLe (relaxAll _ (relaxRoad d a)) (relaxAll _ (relaxRoad e a))
    exact ih (relaxRoad_mono h a)

theorem relaxAll_ole_self (roads : List Road) :
    ∀ d : Nat → Option Nat, DLe (relaxAll roads d) d := by
  induction roads with
  | nil => intro d; exact DLe_refl d
  | cons rd rest ih =>
    intro d
    show DLe (relaxAll rest (relaxRoad d rd)) d
    exact DLe_trans (ih (relaxRoad d rd)) (relaxRoad_ole_self d rd)

/-- Dropping roads from the search graph can only lengthen distances: the full
road list dominates any sublist, round for round. -/
theorem bellman_mono_sublist {l1 l2 : List Road} (hsub : l1.Sublist l2) (src : Nat) :
    ∀ k, DLe (bellman l2 src k) (bellman l1 src k) := by
  intro k
  induction k with
  | zero => exact DLe_refl _
  | succ k ih => exact relaxAll_mono_sublist hsub ih

theorem ole_isSome {x y : Option Nat} (h : ole x y) (hy : y.isSome = true) :
    x.isSome = true := by
  rcases Option.isSome_iff_exists.1 hy with ⟨m, hm⟩
  rcases h m hm with ⟨k, hk, _⟩
  rw [hk]
  rfl

theorem improve_pres_some {d : Nat → Option Nat} {x : Nat} (u v w : Nat)
    (h : (d x).isSome = true) : ((improve d u v w) x).isSome = true := by
  unfold improve
  by_cases hx : x = v
  · rw [if_pos hx]
    subst hx
    cases hdx : d x with
    | none => rw [hdx] at h; cases h
    | some a =>
      cases oplus (d u) w <;> rfl
  · rw [if_neg hx]
    exact h

theorem improve_creates {d : Nat → Option Nat} {u : Nat} (v w : Nat)
    (h : (d u).isSome = true) : ((improve d u v w) v).isSome = true := by
  unfold improve
  rw [if_pos rfl]
  rcases Option.isSome_iff_exists.1 h with ⟨m, hm⟩
  rw [hm]
  cases d v <;> rfl

theorem relaxRoad_pres_some {d : Nat → Option Nat} {x : Nat} (rd : Road)
    (h : (d x).isSome = true) : ((relaxRoad d rd) x).isSome = true :=
  improve_pres_some _ _ _ (improve_pres_some _ _ _ h)

theorem relaxRoad_creates {d : Nat → Option Nat} {u v : Nat} {rd : Road}
    (hedge : (rd.src = u ∧ rd.dst = v) ∨ (rd.src = v ∧ rd.dst = u))
    (h : (d u).isSome = true) : ((relaxRoad d rd) v).isSome = true := by
  unfold relaxRoad
  rcases hedge with ⟨hs, hd⟩ | ⟨hs, hd⟩
  · subst hs; subst hd
    exact improve_pres_some _ _ _ (improve_creates _ _ h)
  · subst hs; subst hd
    exact improve_creates _ _ (improve_pres_some _ _ _ h)

theorem relaxAll_pres_some (roads : List Road) :
    ∀ {d : Nat → Option Nat} {x : Nat}, (d x).isSome = true →
      ((relaxAll roads d) x).isSome = true := by
  induction roads with
  | nil => intro d x h; exact h
  | cons rd rest ih =>
    intro d x h
    show ((relaxAll rest (relaxRoad d rd)) x).isSome = true
    exact ih (relaxRoad_pres_some rd h)

theorem relaxAll_creates {roads : List Road} {u v : Nat} {rd : Road}
    (hmem : rd ∈ roads)
    (hedge : (rd.src = u ∧ rd.dst = v) ∨ (rd.src = v ∧ rd.dst = u)) :
    ∀ {d : Nat → Option Nat}, (d u).isSome = true →
      ((relaxAll roads d) v).isSome = true := by
  induction roads with
  | nil => cases hmem
  | cons a rest ih =>
    intro d h
    show ((relaxAll rest (relaxRoad d a)) v).isSome = true
    rcases List.mem_cons.1 hmem with rfl | hmem2
    · exact relaxAll_pres_some rest (relaxRoad_creates hedge h)
    · exact ih hmem2 (relaxRoad_pres_some a h)

/-- The intersection adjacency of the full road network: `i` and `j` are
joined by some road. -/
def interAdjFull (roads : List Road) (i j : Nat) : Bool :=
  roads.any fun rd =>
    (decide (rd.src = i) && decide (rd.dst = j)) ||
      (decide (rd.src = j) && decide (rd.dst = i))

theorem bellman_some_of_iter {roads : List Road} {n src : Nat} :
    ∀ k, ∀ b ∈ iterClose (interAdjFull roads) (List.range n) [src] k,
      ((bellman roads src k) b).isSome = true := by
  intro k
  induction k with
  | zero =>
    intro b hb
    have hbs : b = src := List.mem_singleton.1 hb
    subst hbs
    simp [bellman]
  | succ k ih =>
    intro b hb
    rcases List.mem_append.1 hb with hbk | hbnew
    · exact relaxAll_pres_some roads (ih b hbk)
    · rcases List.mem_filter.1 hbnew with ⟨_, hcond⟩
      simp only [Bool.and_eq_true, List.any_eq_true] at hcond
      rcases hcond.2 with ⟨u, hu, hadj⟩
      simp only [interAdjFull, List.any_eq_true, Bool.or_eq_true, Bool.and_eq_true,
        decide_eq_true_eq] at hadj
      rcases hadj with ⟨rd, hrd, hcase⟩
      have hedge : (rd.src = u ∧ rd.dst = b) ∨ (rd.src = b ∧ rd.dst = u) := by
        tauto
      exact relaxAll_creates hrd hedge (ih u hu)

/-- Completeness of the fueled search: a reachable target has a finite
distance after `n + 1` rounds. -/
theorem bellman_some_of_reaches {roads : List Road} {n src t : Nat}
    (h : Reaches (interAdjFull roads) (List.range n) src t) :
    ((bellman roads src (n + 1)) t).isSome = true := by
  have hmem : t ∈ reachList (interAdjFull roads) (List.range n) src :=
    reachList_complete (List.nodup_range n) h
  have hlen : (List.range n).length + 1 = n + 1 := by simp
  rw [← hlen]
  exact bellman_some_of_iter _ t hmem

/-- Whether a road record carries a filter that blocks the analyzed mode. -/
def roadBlocked (blocking : FilterKind → Bool) (rd : Road) : Bool :=
  match rd.filter with
  | some f => blocking f.kind
  | none => false

/-- Modelled from the spec: the kind→blocking mapping for general traffic
(§9): full closures and bus/cycle-permeable filters block driving,
access-point filters do not. -/
def blocksDriving : FilterKind → Bool
  | .fullClosure => true
  | .busCyclePermeable => true
  | .accessPoint => false

/-- Modelled from the spec: the search graph of the Router (§4.4): when
filters are respected, "edges whose road carries a blocking filter for the
traveler's mode are excluded from the search graph entirely". -/
def usableRoads (roads : List Road) (blocking : FilterKind → Bool)
    (respectFilters : Bool) : List Road :=
  if respectFilters then roads.filter (fun rd => !roadBlocked blocking rd) else roads

/-- Modelled from the spec: `shortestPath(graph, start, end, respectFilters)`
(§4.4, `route.rs` not under `src/`): the minimum length over road geometry
lengths, over the full graph, `none` meaning `NoRoute`. The returned path is
abstracted to its measured length. -/
def shortestPath (mm : MapModel) (blocking : FilterKind → Bool) (s t : Nat)
    (respectFilters : Bool) : Option Nat :=
  bellman (usableRoads mm.roads blocking respectFilters) s (mm.intersections.length + 1) t

/-- Modelled from the spec: `compareRoute(start, end)` "runs the search twice —
once with filters respected, once without — and returns both paths (either may
individually fail with `NoRoute` ...)" (§4.4); endpoints are the snapped
intersection ids. -/
def MapModel.compareRoute (mm : MapModel) (blocking : FilterKind → Bool)
    (s t : Nat) : Option Nat × Option Nat :=
  (shortestPath mm blocking s t true, shortestPath mm blocking s t false)

/-- Whether the whole intersection network is connected ignoring filters (the
"base network" of §8), phrased through the chain relation `Reaches`. -/
def BaseConnected (mm : MapModel) : Prop :=
  ∀ i j, i < mm.intersections.length → j < mm.intersections.length →
    Reaches (interAdjFull mm.roads) (List.range mm.intersections.length) i j

/-- The road ids incident to intersection `i`. -/
def roadsAtInter (roads : List Road) (i : Nat) : List Nat :=
  (List.range roads.length).filter fun r =>
    match roads[r]? with
    | some rd => decide (rd.src = i) || decide (rd.dst = i)
    | none => false

/-- The endpoint of a road opposite to `i`. -/
def otherEnd (rd : Road) (i : Nat) : Nat :=
  if rd.src = i then rd.dst else rd.src

/-- Fueled enumeration of simple road paths between two intersections, using
only roads satisfying `allowed` and never revisiting an intersection. -/
def simplePathsAux (roads : List Road) (allowed : Nat → Bool) :
    Nat → Nat → Nat → List Nat → List (List Nat)
  | 0, cur, target, _ => if cur = target then [[]] else []
  | fuel + 1, cur, target, visited =>
    if cur = target then [[]]
    else
      ((roadsAtInter roads cur).filter allowed).bind fun r =>
        match roads[r]? with
        | none => []
        | some rd =>
          let w := otherEnd rd cur
          if visited.contains w then []
          else (simplePathsAux roads allowed fuel w target (w :: visited)).map (r :: ·)

/-- Total geometry length of a road id sequence. -/
def pathLength (roads : List Road) (p : List Nat) : Nat :=
  p.foldl
    (fun acc r =>
      acc + match roads[r]? with
        | some rd => rd.length
        | none => 0)
    0

/-- The boundary-crossing points of a neighbourhood: intersections where a
boundary road meets an interior road (§4.5). -/
def crossingPoints (mm : MapModel) (nb : Neighbourhood) : List Nat :=
  ((nb.boundaryRoads.bind fun r =>
      match mm.roads[r]? with
      | some rd => [rd.src, rd.dst]
      | none => []).filter fun i =>
    nb.interiorRoads.any fun r =>
      match mm.roads[r]? with
      | some rd => decide (rd.src = i) || decide (rd.dst = i)
      | none => false).dedup

/-- The shortest entry of a candidate path list. -/
def pickShortest (roads : List Road) : List (List Nat) → Option (List Nat)
  | [] => none
  | p :: rest =>
    match pickShortest roads rest with
    | none => some p
    | some q => if pathLength roads p ≤ pathLength roads q then some p else some q

/-- Modelled from the spec: `Shortcuts::new` / `findShortcuts(graph,
neighbourhood)` (§4.5, `shortcuts.rs` not under `src/`): for every pair of
distinct boundary-crossing points, the shortest interior path between them
with filters respected, annotated with its total length. -/
def shortcutsNew (mm : MapModel) (nb : Neighbourhood) (blocking : FilterKind → Bool) :
    List (List Nat × Nat) :=
  let pts := crossingPoints mm nb
  let allowed : Nat → Bool := fun r =>
    decide (r ∈ nb.interiorRoads) && !blockedRoad mm.roads blocking r
  pts.bind fun a =>
    pts.bind fun b =>
      if a < b then
        match pickShortest mm.roads
            (simplePathsAux mm.roads allowed (mm.intersections.length + 1) a b [a]) with
        | some p => [(p, pathLength mm.roads p)]
        | none => []
      else []

/-- Insert a shortcut path into a length-sorted list. -/
def insertByLen (x : List Nat × Nat) : List (List Nat × Nat) → List (List Nat × Nat)
  | [] => [x]
  | y :: rest => if x.2 ≤ y.2 then x :: y :: rest else y :: insertByLen x rest

/-- Modelled from the spec: `Shortcuts::subset(roadId)` (§4.5): the shortcut
paths whose road sequence contains the road, ordered by ascending length. -/
def shortcutsSubset (sc : List (List Nat × Nat)) (road : Nat) : List (List Nat × Nat) :=
  (sc.filter fun p => p.1.contains road).foldr insertByLen []

/-- Modelled from the spec: the savefile records (§4.6, §6): one
geometry-keyed record per filtered road, and optionally one boundary record
with a marker distinguishing it from road records. -/
inductive SavefileRecord where
  | filterRec (geometry : List Pt) (kind : FilterKind) (position : Option Nat)
  | boundaryRec (polygon : List Pt)
deriving DecidableEq, Repr

/-- The filtered-road records of a road list, in road order. -/
def roadFilterRecords (roads : List Road) : List SavefileRecord :=
  roads.filterMap fun rd =>
    rd.filter.map fun f => SavefileRecord.filterRec rd.geometry f.kind f.position

/-- Modelled from the spec: `MapModel::to_savefile` / `encode(graph,
neighbourhood?)` (§4.6): "one per filtered road (with filter kind, position,
and the road id re-derivable from geometry), and — if a neighbourhood is
active — one additional record carrying the boundary polygon". -/
def mapToSavefile (mm : MapModel) (nb : Option Neighbourhood) : List SavefileRecord :=
  roadFilterRecords mm.roads ++
    (match nb with
      | some n => [SavefileRecord.boundaryRec n.boundary]
      | none => [])

/-- Roads with every filter cleared (loading replaces the whole filter
state). -/
def clearFilters (roads : List Road) : List Road :=
  roads.map fun rd => { rd with filter := none }

/-- The road whose geometry matches a record's geometry exactly (the spec's
"matched to an existing road by geometry/id correspondence", with the float
tolerance collapsed to exact equality). -/
def findRoadByGeometry (roads : List Road) (g : List Pt) : Option Nat :=
  roads.findIdx? fun rd => decide (rd.geometry = g)

/-- One step of the decoder's fold: apply a record to the partial decoded
state, failing on an unmatched geometry or an invalid boundary polygon. -/
def decodeStep (mm : MapModel) (acc : Option (List Road × Option (List Pt)))
    (rec : SavefileRecord) : Option (List Road × Option (List Pt)) :=
  match acc with
  | none => none
  | some (roads, ob) =>
    match rec with
    | .filterRec g k pos =>
      match findRoadByGeometry mm.roads g with
      | some r => some (setFilter roads r (some { kind := k, position := pos }), ob)
      | none => none
    | .boundaryRec p => if polygonValid p then some (roads, some p) else none

/-- Modelled from the spec: `decode(collection)` (§4.6): start from a clean
filter state and fold the records; a record that cannot be matched to a road
by geometry, or a boundary record that is not a valid polygon, fails the
whole load with `MalformedSavefile` (`none` here). -/
def decodeSavefile (mm : MapModel) (records : List SavefileRecord) :
    Option (List Road × Option (List Pt)) :=
  records.foldl (decodeStep mm) (some (clearFilters mm.roads, none))

/-- Modelled from the spec: `MapModel::load_savefile` (§4.6): on success the
decoded filter state replaces the live state wholesale (and becomes the new
replay baseline); on failure nothing changes. -/
def mapLoadSavefile (mm : MapModel) (records : List SavefileRecord) :
    Option (MapModel × Option (List Pt)) :=
  (decodeSavefile mm records).map fun res =>
    ({ mm with roads := res.1, baseRoads := res.1, log := [], cursor := 0 }, res.2)

/-- The recoverable error taxonomy surfaced across the wasm boundary (§7). -/
inductive Err where
  | invalidRoad
  | invalidBoundary
  | malformedSavefile
deriving DecidableEq, Repr

/-- The wasm-facing struct of `lib.rs`: the map plus the stateful optional
neighbourhood ("TODO Stateful, synced with the UI. Weird?"). -/
structure LTN where
  map : MapModel
  neighbourhood : Option Neighbourhood
deriving DecidableEq, Repr

/-- Outcome of one wasm call of `lib.rs`: `Ok` with the surviving state and a
payload, `Err(JsValue)` with the surviving state, or an aborting panic (an
`unwrap` on `None`). -/
inductive CallResult (α : Type) where
  | ok (st : LTN) (val : α)
  | err (st : LTN) (e : Err)
  | crashed
deriving DecidableEq, Repr

/-- The rendered neighbourhood payload of `Neighbourhood::to_gj`: the interior
roads with their current filters (the GeoJSON serialization is abstracted to
its content). -/
def Neighbourhood.toGj (nb : Neighbourhood) (mm : MapModel) : List (Nat × Option ModalFilter) :=
  nb.interiorRoads.map fun r => (r, filterAt mm.roads r)

/-- `LTN::new` (`lib.rs`): construct from map data with no neighbourhood set. -/
def LTN.new (mm : MapModel) : LTN :=
  { map := mm, neighbourhood := none }

/-- `LTN::render_neighbourhood` (`lib.rs`): `self.neighbourhood.as_ref().unwrap()`
— panics when no neighbourhood is set, else renders it. -/
def LTN.renderNeighbourhood (st : LTN) : CallResult (List (Nat × Option ModalFilter)) :=
  match st.neighbourhood with
  | some nb => .ok st (nb.toGj st.map)
  | none => .crashed

/-- `LTN::set_neighbourhood` (`lib.rs`): build a new `Neighbourhood` from the
polygon, replacing any previous one wholesale, then render it. -/
def LTN.setNeighbourhood (st : LTN) (poly : List Pt) :
    CallResult (List (Nat × Option ModalFilter)) :=
  match Neighbourhood.new st.map poly with
  | some nb => LTN.renderNeighbourhood { st with neighbourhood := some nb }
  | none => .err st .invalidBoundary

/-- `LTN::unset_neighbourhood` (`lib.rs`). -/
def LTN.unsetNeighbourhood (st : LTN) : LTN :=
  { st with neighbourhood := none }

/-- `LTN::add_modal_filter` (`lib.rs`): unwraps the neighbourhood, then
unwraps `FilterKind::from_string(&kind)` (in Rust argument order), then places
the filter at the snapped point and renders. -/
def LTN.addModalFilter (st : LTN) (pt : Pt) (kind : String) :
    CallResult (List (Nat × Option ModalFilter)) :=
  match st.neighbourhood with
  | none => .crashed
  | some nb =>
    match FilterKind.fromString kind with
    | none => .crashed
    | some k =>
      LTN.renderNeighbourhood
        { st with map := st.map.addFilterAtPoint pt nb.interiorRoads k }

/-- `LTN::add_many_modal_filters` (`lib.rs`): unwraps the neighbourhood and
the kind string, then applies the batch along the drawn linestring and
renders. -/
def LTN.addManyModalFilters (st : LTN) (line : List Pt) (kind : String) :
    CallResult (List (Nat × Option ModalFilter)) :=
  match st.neighbourhood with
  | none => .crashed
  | some nb =>
    match FilterKind.fromString kind with
    | none => .crashed
    | some k =>
      LTN.renderNeighbourhood
        { st with map := st.map.addManyFilters line nb.interiorRoads k }

/-- `LTN::delete_modal_filter` (`lib.rs`): delete, then render (which unwraps
the neighbourhood). -/
def LTN.deleteModalFilter (st : LTN) (road : Nat) :
    CallResult (List (Nat × Option ModalFilter)) :=
  LTN.renderNeighbourhood { st with map := st.map.removeFilter road }

/-- `LTN::undo` (`lib.rs`): `self.map.undo()` then render (which unwraps the
neighbourhood). -/
def LTN.undo (st : LTN) : CallResult (List (Nat × Option ModalFilter)) :=
  LTN.renderNeighbourhood { st with map := st.map.undo }

/-- `LTN::redo` (`lib.rs`): `self.map.redo()` then render (which unwraps the
neighbourhood). -/
def LTN.redo (st : LTN) : CallResult (List (Nat × Option ModalFilter)) :=
  LTN.renderNeighbourhood { st with map := st.map.redo }

/-- `LTN::get_shortcuts_crossing_road` (`lib.rs`): unwraps the neighbourhood
as an argument of `Shortcuts::new`, then filters the shortcut set to the
road. -/
def LTN.getShortcutsCrossingRoad (st : LTN) (road : Nat) :
    CallResult (List (List Nat × Nat)) :=
  match st.neighbourhood with
  | none => .crashed
  | some nb => .ok st (shortcutsSubset (shortcutsNew st.map nb blocksDriving) road)

/-- `LTN::to_savefile` (`lib.rs`): encode the filters with the optional
neighbourhood boundary. -/
def LTN.toSavefile (st : LTN) : List SavefileRecord :=
  mapToSavefile st.map st.neighbourhood

/-- `LTN::load_savefile` (`lib.rs`): decode into the map (`?` aborts on a
malformed savefile, leaving the state untouched), then clear the
neighbourhood and reinstall it only when the savefile carried a boundary;
returns whether a neighbourhood was set up. -/
def LTN.loadSavefile (st : LTN) (records : List SavefileRecord) : CallResult Bool :=
  match mapLoadSavefile st.map records with
  | none => .err st .malformedSavefile
  | some (mm2, ob) =>
    match ob with
    | none => .ok { map := mm2, neighbourhood := none } false
    | some b =>
      match Neighbourhood.new mm2 b with
      | some nb => .ok { map := mm2, neighbourhood := some nb } true
      | none => .err { map := mm2, neighbourhood := none } .invalidBoundary

/-- `LTN::compare_route` (`lib.rs`): both searches on the map, endpoints
snapped to intersections. -/
def LTN.compareRoute (st : LTN) (s t : Nat) : CallResult (Option Nat × Option Nat) :=
  .ok st (st.map.compareRoute blocksDriving s t)

theorem setFilter_length (roads : List Road) (r : Nat) (of : Option ModalFilter) :
    (setFilter roads r of).length = roads.length := by
  induction roads generalizing r with
  | nil => rfl
  | cons rd rest ih =>
    cases r with
    | zero => rfl
    | succ n => simp [setFilter, ih]

theorem filterAt_setFilter_same {roads : List Road} {r : Nat} (h : r < roads.length)
    (of : Option ModalFilter) : filterAt (setFilter roads r of) r = of := by
  induction roads generalizing r with
  | nil => cases h
  | cons rd rest ih =>
    cases r with
    | zero => simp [setFilter, filterAt]
    | succ n =>
      have hn : n < rest.length := by simpa using h
      simpa [setFilter, filterAt] using ih hn

theorem filterAt_setFilter_other {roads : List Road} {r x : Nat} (h : r ≠ x)
    (of : Option ModalFilter) : filterAt (setFilter roads x of) r = filterAt roads r := by
  induction roads generalizing r x with
  | nil => rfl
  | cons rd rest ih =>
    cases x with
    | zero =>
      cases r with
      | zero => exact absurd rfl h
      | succ m => rfl
    | succ n =>
      cases r with
      | zero => simp [setFilter, filterAt]
      | succ m =>
        have hm : m ≠ n := fun hc => h (by rw [hc])
        simpa [setFilter, filterAt] using ih hm

theorem replay_append (base : List Road) (cmds : List Command) (c : Command) :
    replay base (cmds ++ [c]) = applyCommand (replay base cmds) c := by
  simp [replay, List.foldl_append]

theorem Inv_recordCommand {mm : MapModel} (h : mm.Inv) (c : Command) :
    (mm.recordCommand c).Inv := by
  rcases h with ⟨hr, hc⟩
  constructor
  · show applyCommand mm.roads c
      = replay mm.baseRoads ((mm.log.take mm.cursor ++ [c]).take (mm.cursor + 1))
    have hlen : (mm.log.take mm.cursor ++ [c]).length = mm.cursor + 1 := by
      simp [List.length_take, Nat.min_eq_left hc]
    rw [← hlen, List.take_length, replay_append, hr]
  · show mm.cursor + 1 ≤ (mm.log.take mm.cursor ++ [c]).length
    simp [List.length_take, Nat.min_eq_left hc]

theorem Inv_addFilter {mm mm2 : MapModel} (h : mm.Inv) {r : Nat} {f : ModalFilter}
    (ha : mm.addFilter r f = some mm2) : mm2.Inv := by
  unfold MapModel.addFilter at ha
  by_cases hr : r < mm.roads.length
  · rw [if_pos hr] at ha
    cases ha
    exact Inv_recordCommand h _
  · rw [if_neg hr] at ha
    cases ha

theorem Inv_removeFilter {mm : MapModel} (h : mm.Inv) (r : Nat) :
    (mm.removeFilter r).Inv := by
  unfold MapModel.removeFilter
  cases filterAt mm.roads r with
  | none => exact h
  | some f => exact Inv_recordCommand h _

theorem Inv_addManyFilters {mm : MapModel} (h : mm.Inv) (line : List Pt)
    (interior : List Nat) (k : FilterKind) : (mm.addManyFilters line interior k).Inv :=
  Inv_recordCommand h _

theorem Inv_addFilterAtPoint {mm : MapModel} (h : mm.Inv) (pt : Pt)
    (interior : List Nat) (k : FilterKind) : (mm.addFilterAtPoint pt interior k).Inv := by
  unfold MapModel.addFilterAtPoint
  cases snapToRoad pt interior mm.roads with
  | none => exact h
  | some r => exact Inv_recordCommand h _

theorem Inv_undo {mm : MapModel} (h : mm.Inv) : mm.undo.Inv := by
  rcases h with ⟨_, hc⟩
  unfold MapModel.undo
  by_cases h0 : mm.cursor = 0
  · rw [if_pos h0]
    exact ⟨by assumption, hc⟩
  · rw [if_neg h0]
    refine ⟨rfl, ?_⟩
    show mm.cursor - 1 ≤ mm.log.length
    omega

theorem Inv_redo {mm : MapModel} (h : mm.Inv) : mm.redo.Inv := by
  rcases h with ⟨_, hc⟩
  unfold MapModel.redo
  by_cases h0 : mm.cursor = mm.log.length
  · rw [if_pos h0]
    exact ⟨by assumption, hc⟩
  · rw [if_neg h0]
    refine ⟨rfl, ?_⟩
    show mm.cursor + 1 ≤ mm.log.length
    have : mm.cursor < mm.log.length := Nat.lt_of_le_of_ne hc h0
    omega

theorem Inv_init (inters : List Pt) (roads : List Road) : (MapModel.init inters roads).Inv :=
  ⟨rfl, Nat.le_refl 0⟩

/-- Undoing a freshly recorded command restores exactly the previous live
road list (the cursor steps back over the new command and replay reproduces
the pre-command state). -/
theorem undo_recordCommand {mm : MapModel} (h : mm.Inv) (c : Command) :
    (mm.recordCommand c).undo.roads = mm.roads ∧
      (mm.recordCommand c).undo.cursor = mm.cursor := by
  rcases h with ⟨hr, hc⟩
  unfold MapModel.recordCommand MapModel.undo
  simp only [Nat.succ_ne_zero, if_false, Nat.add_sub_cancel]
  constructor
  · have h1 : (mm.log.take mm.cursor ++ [c]).take mm.cursor = mm.log.take mm.cursor := by
      rw [List.take_append_of_le_length]
      · rw [List.take_take, Nat.min_self]
      · simp [List.length_take, Nat.min_eq_left hc]
    rw [h1, ← hr]
  · trivial

/-- The user-visible filter mutations of the history-replay law (§8): add a
filter, remove a filter, undo, redo. -/
inductive EditOp where
  | add (r : Nat) (f : ModalFilter)
  | remove (r : Nat)
  | undoOp
  | redoOp
deriving DecidableEq, Repr

/-- Apply one operation to the Graph Model; a rejected `addFilter` (unknown
road id) reports its failure and leaves the state unchanged, keeping the
session alive (§7). -/
def applyEditOp (mm : MapModel) : EditOp → MapModel
  | .add r f =>
    match mm.addFilter r f with
    | some mm2 => mm2
    | none => mm
  | .remove r => mm.removeFilter r
  | .undoOp => mm.undo
  | .redoOp => mm.redo

/-- Apply a whole operation sequence. -/
def applyEditOps (mm : MapModel) (ops : List EditOp) : MapModel :=
  ops.foldl applyEditOp mm

theorem Inv_applyEditOp {mm : MapModel} (h : mm.Inv) (op : EditOp) :
    (applyEditOp mm op).Inv := by
  cases op with
  | add r f =>
    show (match mm.addFilter r f with
      | some mm2 => mm2
      | none => mm).Inv
    cases ha : mm.addFilter r f with
    | none => exact h
    | some mm2 => exact Inv_addFilter h ha
  | remove r => exact Inv_removeFilter h r
  | undoOp => exact Inv_undo h
  | redoOp => exact Inv_redo h

theorem Inv_applyEditOps {mm : MapModel} (h : mm.Inv) :
    ∀ ops : List EditOp, (applyEditOps mm ops).Inv := by
  intro ops
  induction ops generalizing mm with
  | nil => exact h
  | cons op rest ih => exact ih (Inv_applyEditOp h op)

theorem filterAt_none_of_ge {roads : List Road} {r : Nat} (h : roads.length ≤ r) :
    filterAt roads r = none := by
  unfold filterAt
  rw [List.getElem?_eq_none h]

theorem mem_roadsCrossed_lt {line : List Pt} {interior : List Nat} {roads : List Road}
    {r : Nat} (h : r ∈ roadsCrossed line interior roads) : r < roads.length := by
  rcases List.mem_filter.1 h with ⟨_, hcond⟩
  by_contra hge
  have : roads[r]? = none := List.getElem?_eq_none (by omega)
  rw [this] at hcond
  cases hcond

theorem batch_length (roads : List Road) (rs : List Nat) (f : ModalFilter) :
    (rs.foldl (fun acc r => setFilter acc r (some f)) roads).length = roads.length := by
  induction rs generalizing roads with
  | nil => rfl
  | cons x t ih => simp [ih, setFilter_length]

theorem batch_not_mem {rs : List Nat} {r : Nat} (h : r ∉ rs) (roads : List Road)
    (f : ModalFilter) :
    filterAt (rs.foldl (fun acc x => setFilter acc x (some f)) roads) r
      = filterAt roads r := by
  induction rs generalizing roads with
  | nil => rfl
  | cons x t ih =>
    have hrx : r ≠ x := fun hc => h (hc ▸ List.mem_cons_self x t)
    have hrt : r ∉ t := fun hc => h (List.mem_cons_of_mem x hc)
    show filterAt (t.foldl _ (setFilter roads x (some f))) r = _
    rw [ih hrt, filterAt_setFilter_other hrx]

theorem batch_mem {rs : List Nat} {r : Nat} (hmem : r ∈ rs) (roads : List Road)
    (hlt : r < roads.length) (f : ModalFilter) :
    filterAt (rs.foldl (fun acc x => setFilter acc x (some f)) roads) r = some f := by
  induction rs generalizing roads with
  | nil => cases hmem
  | cons x t ih =>
    show filterAt (t.foldl _ (setFilter roads x (some f))) r = some f
    by_cases hrt : r ∈ t
    · exact ih hrt _ (by rw [setFilter_length]; exact hlt)
    · have hrx : r = x := by
        rcases List.mem_cons.1 hmem with h | h
        · exact h
        · exact absurd h hrt
      subst hrx
      rw [batch_not_mem hrt, filterAt_setFilter_same hlt]

theorem foldl_decodeStep_none (mm : MapModel) :
    ∀ records : List SavefileRecord, records.foldl (decodeStep mm) none = none := by
  intro records
  induction records with
  | nil => rfl
  | cons rec rest ih => simpa [decodeStep] using ih

theorem findRoadByGeometry_self :
    ∀ {roads : List Road}, (roads.map fun rd => rd.geometry).Nodup →
      ∀ {i : Nat} {rd : Road}, roads[i]? = some rd →
        findRoadByGeometry roads rd.geometry = some i := by
  intro roads
  induction roads with
  | nil => intro _ i rd h; simp at h
  | cons a t ih =>
    intro hg i rd h
    have hg' : (∀ x ∈ t, ¬x.geometry = a.geometry) ∧
        ((t.map fun rd => rd.geometry).Nodup) := by simpa using hg
    cases i with
    | zero =>
      have hard : a = rd := by simpa using h
      subst hard
      simp [findRoadByGeometry]
    | succ j =>
      have hj : t[j]? = some rd := by simpa using h
      have hmem : rd ∈ t := by
        rcases List.getElem?_eq_some.1 hj with ⟨hjl, hje⟩
        exact hje ▸ List.getElem_mem hjl
      have hne : ¬(a.geometry = rd.geometry) := fun heq => hg'.1 rd hmem (heq.symm)
      have hg2 := hg'.2
      have hrec := ih hg2 hj
      unfold findRoadByGeometry at hrec ⊢
      rw [List.findIdx?_cons, if_neg (by simpa using hne), List.findIdx?_succ, hrec]
      rfl

theorem setFilter_append (l1 : List Road) (x : Road) (l2 : List Road)
    (of : Option ModalFilter) :
    setFilter (l1 ++ x :: l2) l1.length of = l1 ++ ({ x with filter := of } :: l2) := by
  induction l1 with
  | nil => rfl
  | cons a t ih => simp [setFilter, ih]

theorem setFilter_take_append (l1 : List Road) (x : Road) (l2 : List Road)
    (of : Option ModalFilter) {i : Nat} (h : l1.length = i) :
    setFilter (l1 ++ x :: l2) i of = l1 ++ ({ x with filter := of } :: l2) := by
  subst h
  exact setFilter_append l1 x l2 of

theorem road_set_filter_self {rd : Road} {f : ModalFilter} (h : rd.filter = some f) :
    { rd with filter := some f } = rd := by
  cases rd
  simp_all

theorem road_clear_self {rd : Road} (h : rd.filter = none) :
    { rd with filter := none } = rd := by
  cases rd
  simp_all

theorem decode_fold_restore (mm : MapModel)
    (hg : (mm.roads.map fun rd => rd.geometry).Nodup) :
    ∀ (suffix : List Road) (i : Nat), mm.roads.drop i = suffix →
      ∀ ob, (roadFilterRecords suffix).foldl (decodeStep mm)
          (some (mm.roads.take i ++ clearFilters suffix, ob))
        = some (mm.roads, ob) := by
  intro suffix
  induction suffix with
  | nil =>
    intro i hdrop ob
    have hlen : mm.roads.length ≤ i := by
      rw [← List.drop_eq_nil_iff_le]
      exact hdrop
    simp [roadFilterRecords, clearFilters, List.take_of_length_le hlen]
  | cons rd rest ih =>
    intro i hdrop ob
    have hi : mm.roads[i]? = some rd := by
      have := List.getElem?_drop mm.roads i 0
      rw [hdrop] at this
      simpa using this.symm
    have hdrop1 : mm.roads.drop (i + 1) = rest := by
      have h1 : mm.roads.drop (i + 1) = (mm.roads.drop i).drop 1 := by
        rw [List.drop_drop, Nat.add_comm]
      rw [h1, hdrop]
      rfl
    have htake : mm.roads.take (i + 1) = mm.roads.take i ++ [rd] := by
      rw [List.take_succ]
      simp [hi]
    cases hf : rd.filter with
    | none =>
      have hrec : roadFilterRecords (rd :: rest) = roadFilterRecords rest := by
        simp [roadFilterRecords, List.filterMap_cons, hf]
      have hacc : mm.roads.take i ++ clearFilters (rd :: rest)
          = mm.roads.take (i + 1) ++ clearFilters rest := by
        show mm.roads.take i ++ ({ rd with filter := none } :: clearFilters rest) = _
        rw [road_clear_self hf, htake]
        simp
      rw [hrec, hacc]
      exact ih (i + 1) hdrop1 ob
    | some f =>
      have hrec : roadFilterRecords (rd :: rest)
          = SavefileRecord.filterRec rd.geometry f.kind f.position :: roadFilterRecords rest := by
        simp [roadFilterRecords, List.filterMap_cons, hf]
      rw [hrec]
      show (roadFilterRecords rest).foldl (decodeStep mm)
          (decodeStep mm (some (mm.roads.take i ++ clearFilters (rd :: rest), ob)) _)
        = some (mm.roads, ob)
      have hfind : findRoadByGeometry mm.roads rd.geometry = some i :=
        findRoadByGeometry_self hg hi
      have hlt : i < mm.roads.length := by
        by_contra hge
        rw [List.getElem?_eq_none (by omega)] at hi
        cases hi
      have hlen : (mm.roads.take i).length = i := by
        simp [List.length_take]
        omega
      have hstep : decodeStep mm (some (mm.roads.take i ++ clearFilters (rd :: rest), ob))
          (SavefileRecord.filterRec rd.geometry f.kind f.position)
          = some (mm.roads.take (i + 1) ++ clearFilters rest, ob) := by
        show (match findRoadByGeometry mm.roads rd.geometry with
          | some r => some (setFilter (mm.roads.take i ++ clearFilters (rd :: rest)) r
              (some { kind := f.kind, position := f.position }), ob)
          | none => none) = _
        rw [hfind]
        show some (setFilter (mm.roads.take i ++ clearFilters (rd :: rest)) i
            (some { kind := f.kind, position := f.position }), ob)
          = some (mm.roads.take (i + 1) ++ clearFilters rest, ob)
        have hclear : clearFilters (rd :: rest)
            = { rd with filter := none } :: clearFilters rest := rfl
        rw [hclear, setFilter_take_append _ _ _ _ hlen]
        have hfm : ({ kind := f.kind, position := f.position } : ModalFilter) = f := rfl
        rw [hfm]
        have hcomp : ({ { rd with filter := none } with filter := some f } : Road)
            = { rd with filter := some f } := rfl
        rw [hcomp, road_set_filter_self hf, htake]
        simp
      rw [hstep]
      exact ih (i + 1) hdrop1 ob

/-- Decoding the encoder's output restores the live roads (hence the filter
set) and the boundary exactly, provided road geometries are pairwise distinct
(the geometry/id correspondence of §4.6) and the active boundary is a valid
polygon. -/
theorem decodeSavefile_roundTrip (mm : MapModel)
    (hg : (mm.roads.map fun rd => rd.geometry).Nodup) (nb : Option Neighbourhood)
    (hb : ∀ n, nb = some n → polygonValid n.boundary = true) :
    decodeSavefile mm (mapToSavefile mm nb)
      = some (mm.roads, nb.map fun n => n.boundary) := by
  unfold decodeSavefile mapToSavefile
  rw [List.foldl_append]
  have h0 : (roadFilterRecords mm.roads).foldl (decodeStep mm)
      (some (clearFilters mm.roads, none)) = some (mm.roads, none) := by
    have := decode_fold_restore mm hg mm.roads 0 rfl none
    simpa using this
  rw [h0]
  cases nb with
  | none => rfl
  | some n =>
    show decodeStep mm (some (mm.roads, none)) (SavefileRecord.boundaryRec n.boundary)
      = some (mm.roads, some n.boundary)
    show (if polygonValid n.boundary then some (mm.roads, some n.boundary) else none) = _
    rw [if_pos (hb n rfl)]

/-- Whether a savefile contains a boundary record. -/
def hasBoundaryRec (records : List SavefileRecord) : Bool :=
  records.any fun rec =>
    match rec with
    | .boundaryRec _ => true
    | .filterRec _ _ _ => false

theorem decode_fold_boundary_valid (mm : MapModel) :
    ∀ (records : List SavefileRecord) (acc : List Road × Option (List Pt)),
      (∀ b, acc.2 = some b → polygonValid b = true) →
      ∀ roads2 b2, records.foldl (decodeStep mm) (some acc) = some (roads2, some b2) →
        polygonValid b2 = true := by
  intro records
  induction records with
  | nil =>
    intro acc hacc roads2 b2 h
    have : acc = (roads2, some b2) := by simpa using h
    exact hacc b2 (by rw [this])
  | cons rec rest ih =>
    intro acc hacc roads2 b2 h
    rcases acc with ⟨roads, ob⟩
    cases rec with
    | filterRec g k pos =>
      cases hfind : findRoadByGeometry mm.roads g with
      | some r =>
        have hstep : decodeStep mm (some (roads, ob)) (.filterRec g k pos)
            = some (setFilter roads r (some { kind := k, position := pos }), ob) := by
          show (match findRoadByGeometry mm.roads g with
            | some r => some (setFilter roads r (some { kind := k, position := pos }), ob)
            | none => none) = _
          rw [hfind]
        rw [show List.foldl (decodeStep mm) (some (roads, ob)) (.filterRec g k pos :: rest)
            = List.foldl (decodeStep mm)
              (decodeStep mm (some (roads, ob)) (.filterRec g k pos)) rest from rfl,
          hstep] at h
        exact ih (setFilter roads r (some { kind := k, position := pos }), ob)
          (fun b hb => hacc b hb) roads2 b2 h
      | none =>
        have hstep : decodeStep mm (some (roads, ob)) (.filterRec g k pos) = none := by
          show (match findRoadByGeometry mm.roads g with
            | some r => some (setFilter roads r (some { kind := k, position := pos }), ob)
            | none => none) = _
          rw [hfind]
        rw [show List.foldl (decodeStep mm) (some (roads, ob)) (.filterRec g k pos :: rest)
            = List.foldl (decodeStep mm)
              (decodeStep mm (some (roads, ob)) (.filterRec g k pos)) rest from rfl,
          hstep, foldl_decodeStep_none] at h
        cases h
    | boundaryRec p =>
      by_cases hp : polygonValid p = true
      · have hstep : decodeStep mm (some (roads, ob)) (.boundaryRec p)
            = some (roads, some p) := by
          show (if polygonValid p then some (roads, some p) else none) = _
          rw [if_pos hp]
        rw [show List.foldl (decodeStep mm) (some (roads, ob)) (.boundaryRec p :: rest)
            = List.foldl (decodeStep mm)
              (decodeStep mm (some (roads, ob)) (.boundaryRec p)) rest from rfl,
          hstep] at h
        refine ih (roads, some p) ?_ roads2 b2 h
        intro b hb
        have hpb : p = b := by simpa using hb
        exact hpb ▸ hp
      · have hstep : decodeStep mm (some (roads, ob)) (.boundaryRec p) = none := by
          show (if polygonValid p then some (roads, some p) else none) = _
          rw [if_neg hp]
        rw [show List.foldl (decodeStep mm) (some (roads, ob)) (.boundaryRec p :: rest)
            = List.foldl (decodeStep mm)
              (decodeStep mm (some (roads, ob)) (.boundaryRec p)) rest from rfl,
          hstep, foldl_decodeStep_none] at h
        cases h

theorem decode_fold_hasBoundary (mm : MapModel) :
    ∀ (records : List SavefileRecord) (acc : List Road × Option (List Pt))
      (roads2 : List Road) (ob2 : Option (List Pt)),
      records.foldl (decodeStep mm) (some acc) = some (roads2, ob2) →
      ob2.isSome = (acc.2.isSome || hasBoundaryRec records) := by
  intro records
  induction records with
  | nil =>
    intro acc roads2 ob2 h
    have hacc : acc = (roads2, ob2) := by simpa using h
    subst hacc
    simp [hasBoundaryRec]
  | cons rec rest ih =>
    intro acc roads2 ob2 h
    rcases acc with ⟨roads, ob⟩
    cases rec with
    | filterRec g k pos =>
      cases hfind : findRoadByGeometry mm.roads g with
      | some r =>
        have hstep : decodeStep mm (some (roads, ob)) (.filterRec g k pos)
            = some (setFilter roads r (some { kind := k, position := pos }), ob) := by
          show (match findRoadByGeometry mm.roads g with
            | some r => some (setFilter roads r (some { kind := k, position := pos }), ob)
            | none => none) = _
          rw [hfind]
        rw [show List.foldl (decodeStep mm) (some (roads, ob)) (.filterRec g k pos :: rest)
            = List.foldl (decodeStep mm)
              (decodeStep mm (some (roads, ob)) (.filterRec g k pos)) rest from rfl,
          hstep] at h
        have := ih _ roads2 ob2 h
        simpa [hasBoundaryRec] using this
      | none =>
        have hstep : decodeStep mm (some (roads, ob)) (.filterRec g k pos) = none := by
          show (match findRoadByGeometry mm.roads g with
            | some r => some (setFilter roads r (some { kind := k, position := pos }), ob)
            | none => none) = _
          rw [hfind]
        rw [show List.foldl (decodeStep mm) (some (roads, ob)) (.filterRec g k pos :: rest)
            = List.foldl (decodeStep mm)
              (decodeStep mm (some (roads, ob)) (.filterRec g k pos)) rest from rfl,
          hstep, foldl_decodeStep_none] at h
        cases h
    | boundaryRec p =>
      by_cases hp : polygonValid p = true
      · have hstep : decodeStep mm (some (roads, ob)) (.boundaryRec p)
            = some (roads, some p) := by
          show (if polygonValid p then some (roads, some p) else none) = _
          rw [if_pos hp]
        rw [show List.foldl (decodeStep mm) (some (roads, ob)) (.boundaryRec p :: rest)
            = List.foldl (decodeStep mm)
              (decodeStep mm (some (roads, ob)) (.boundaryRec p)) rest from rfl,
          hstep] at h
        have := ih _ roads2 ob2 h
        simpa [hasBoundaryRec] using this
      · have hstep : decodeStep mm (some (roads, ob)) (.boundaryRec p) = none := by
          show (if polygonValid p then some (roads, some p) else none) = _
          rw [if_neg hp]
        rw [show List.foldl (decodeStep mm) (some (roads, ob)) (.boundaryRec p :: rest)
            = List.foldl (decodeStep mm)
              (decodeStep mm (some (roads, ob)) (.boundaryRec p)) rest from rfl,
          hstep, foldl_decodeStep_none] at h
        cases h

/-- C2: for every sequence of addFilter/removeFilter/undo/redo operations
applied from the initial graph state, the live road list (hence the filter
set) equals the replay of the EditLog's commands 0..cursor from the initial
state — direct mutation with no history — and, since the operation sequence
is arbitrary, this holds after every individual operation. -/
theorem C2_history_replay_law (inters : List Pt) (roads0 : List Road)
    (ops : List EditOp) :
    (applyEditOps (MapModel.init inters roads0) ops).roads
      = replay (applyEditOps (MapModel.init inters roads0) ops).baseRoads
        ((applyEditOps (MapModel.init inters roads0) ops).log.take
          (applyEditOps (MapModel.init inters roads0) ops).cursor) ∧
    (applyEditOps (MapModel.init inters roads0) ops).cursor
      ≤ (applyEditOps (MapModel.init inters roads0) ops).log.length :=
  Inv_applyEditOps (Inv_init inters roads0) ops

/-- C7: undo at the start of history and redo at the end of history are
no-ops: the whole map state (filter set, cursor, log) is unchanged, and at
the wasm layer the call reports success (the rendered neighbourhood), not an
error. -/
theorem C7_undo_redo_noop :
    (∀ mm : MapModel, mm.cursor = 0 → mm.undo = mm) ∧
    (∀ mm : MapModel, mm.cursor = mm.log.length → mm.redo = mm) ∧
    (∀ (st : LTN) (nb : Neighbourhood), st.neighbourhood = some nb →
      st.map.cursor = 0 → LTN.undo st = .ok st (nb.toGj st.map)) ∧
    (∀ (st : LTN) (nb : Neighbourhood), st.neighbourhood = some nb →
      st.map.cursor = st.map.log.length → LTN.redo st = .ok st (nb.toGj st.map)) := by
  have hu : ∀ mm : MapModel, mm.cursor = 0 → mm.undo = mm := by
    intro mm h
    unfold MapModel.undo
    rw [if_pos h]
  have hr : ∀ mm : MapModel, mm.cursor = mm.log.length → mm.redo = mm := by
    intro mm h
    unfold MapModel.redo
    rw [if_pos h]
  refine ⟨hu, hr, ?_, ?_⟩
  · intro st nb hnb h0
    show LTN.renderNeighbourhood { st with map := st.map.undo } = _
    rw [hu st.map h0]
    show LTN.renderNeighbourhood st = _
    unfold LTN.renderNeighbourhood
    rw [hnb]
  · intro st nb hnb h0
    show LTN.renderNeighbourhood { st with map := st.map.redo } = _
    rw [hr st.map h0]
    show LTN.renderNeighbourhood st = _
    unfold LTN.renderNeighbourhood
    rw [hnb]

/-- Witness for C7 at a concrete state: a fresh map (cursor 0, empty log)
with a neighbourhood set. -/
theorem C7_undo_redo_noop_witness :
    (MapModel.init [] []).undo = MapModel.init [] [] ∧
    (MapModel.init [] []).redo = MapModel.init [] [] ∧
    LTN.undo { map := MapModel.init [] [],
               neighbourhood := some { boundary := [(0, 0), (4, 0), (0, 4)],
                                       interiorRoads := [], boundaryRoads := [] } }
      = .ok { map := MapModel.init [] [],
              neighbourhood := some { boundary := [(0, 0), (4, 0), (0, 4)],
                                      interiorRoads := [], boundaryRoads := [] } }
          (Neighbourhood.toGj { boundary := [(0, 0), (4, 0), (0, 4)],
                                interiorRoads := [], boundaryRoads := [] }
            (MapModel.init [] [])) :=
  ⟨C7_undo_redo_noop.1 (MapModel.init [] []) rfl,
   C7_undo_redo_noop.2.1 (MapModel.init [] []) rfl,
   C7_undo_redo_noop.2.2.1
     { map := MapModel.init [] [],
       neighbourhood := some { boundary := [(0, 0), (4, 0), (0, 4)],
                               interiorRoads := [], boundaryRoads := [] } }
     { boundary := [(0, 0), (4, 0), (0, 4)], interiorRoads := [], boundaryRoads := [] }
     rfl rfl⟩

/-- C10: with no neighbourhood set, every operation of `lib.rs` that unwraps
`self.neighbourhood` — renderNeighbourhood, addModalFilter,
addManyModalFilters, deleteModalFilter, undo, redo, getShortcutsCrossingRoad
— panics (aborts) instead of returning a structured failure. -/
theorem C10_panic_without_neighbourhood :
    ∀ st : LTN, st.neighbourhood = none →
      ∀ (pt : Pt) (line : List Pt) (kind : String) (road : Nat),
        LTN.renderNeighbourhood st = .crashed ∧
        LTN.addModalFilter st pt kind = .crashed ∧
        LTN.addManyModalFilters st line kind = .crashed ∧
        LTN.deleteModalFilter st road = .crashed ∧
        LTN.undo st = .crashed ∧
        LTN.redo st = .crashed ∧
        LTN.getShortcutsCrossingRoad st road = .crashed := by
  intro st h pt line kind road
  refine ⟨?_, ?_, ?_, ?_, ?_, ?_, ?_⟩
  · unfold LTN.renderNeighbourhood
    rw [h]
  · unfold LTN.addModalFilter
    rw [h]
  · unfold LTN.addManyModalFilters
    rw [h]
  · show LTN.renderNeighbourhood { st with map := st.map.removeFilter road } = _
    unfold LTN.renderNeighbourhood
    show (match st.neighbourhood with
      | some nb => CallResult.ok { st with map := st.map.removeFilter road }
          (nb.toGj (st.map.removeFilter road))
      | none => CallResult.crashed) = _
    rw [h]
  · show LTN.renderNeighbourhood { st with map := st.map.undo } = _
    unfold LTN.renderNeighbourhood
    show (match st.neighbourhood with
      | some nb => CallResult.ok { st with map := st.map.undo } (nb.toGj st.map.undo)
      | none => CallResult.crashed) = _
    rw [h]
  · show LTN.renderNeighbourhood { st with map := st.map.redo } = _
    unfold LTN.renderNeighbourhood
    show (match st.neighbourhood with
      | some nb => CallResult.ok { st with map := st.map.redo } (nb.toGj st.map.redo)
      | none => CallResult.crashed) = _
    rw [h]
  · unfold LTN.getShortcutsCrossingRoad
    rw [h]

/-- Witness for C10: the freshly constructed wasm object (no neighbourhood)
panics on each of the listed operations. -/
theorem C10_panic_without_neighbourhood_witness :
    LTN.renderNeighbourhood (LTN.new (MapModel.init [] [])) = .crashed ∧
    LTN.undo (LTN.new (MapModel.init [] [])) = .crashed :=
  by
  have h := C10_panic_without_neighbourhood (LTN.new (MapModel.init [] [])) rfl
    (0, 0) [] "full_closure" 0
  exact ⟨h.1, h.2.2.2.2.1⟩

/-- Counterexample to C8 as stated: with a neighbourhood set, calling
`addModalFilter` with an unrecognized kind string does not return a structured
recoverable failure — `FilterKind::from_string(&kind).unwrap()` in `lib.rs`
panics and aborts. -/
theorem C8_counterexample :
    LTN.addModalFilter
        { map := MapModel.init [(0, 0), (3, 0)]
            [{ src := 0, dst := 1, geometry := [(0, 0), (3, 0)], length := 3,
               tags := [], filter := none }],
          neighbourhood := some { boundary := [(-1, -1), (4, -1), (4, 1), (-1, 1)],
                                  interiorRoads := [0], boundaryRoads := [] } }
        (1, 0) "not_a_kind"
      = .crashed ∧
    LTN.addManyModalFilters
        { map := MapModel.init [(0, 0), (3, 0)]
            [{ src := 0, dst := 1, geometry := [(0, 0), (3, 0)], length := 3,
               tags := [], filter := none }],
          neighbourhood := some { boundary := [(-1, -1), (4, -1), (4, 1), (-1, 1)],
                                  interiorRoads := [0], boundaryRoads := [] } }
        [(1, -1), (1, 1)] "not_a_kind"
      = .crashed := by
  constructor <;> rfl

/-- C8 amended: an unrecognized filter-kind string passed to `addModalFilter`
or `addManyModalFilters` panics (an `unwrap` on `None`) rather than producing
a structured `InvalidInput` failure, whenever a neighbourhood is set. -/
theorem C8_unknown_kind_panics :
    ∀ (st : LTN) (nb : Neighbourhood) (pt : Pt) (line : List Pt) (kind : String),
      st.neighbourhood = some nb → FilterKind.fromString kind = none →
      LTN.addModalFilter st pt kind = .crashed ∧
      LTN.addManyModalFilters st line kind = .crashed := by
  intro st nb pt line kind hnb hk
  constructor
  · unfold LTN.addModalFilter
    rw [hnb, hk]
  · unfold LTN.addManyModalFilters
    rw [hnb, hk]

/-- Witness for the amended C8 at a concrete state and kind string. -/
theorem C8_unknown_kind_panics_witness :
    LTN.addModalFilter
        { map := MapModel.init [] [],
          neighbourhood := some { boundary := [(0, 0), (4, 0), (0, 4)],
                                  interiorRoads := [], boundaryRoads := [] } }
        (0, 0) "not_a_kind"
      = .crashed :=
  (C8_unknown_kind_panics
    { map := MapModel.init [] [],
      neighbourhood := some { boundary := [(0, 0), (4, 0), (0, 4)],
                              interiorRoads := [], boundaryRoads := [] } }
    { boundary := [(0, 0), (4, 0), (0, 4)], interiorRoads := [], boundaryRoads := [] }
    (0, 0) [] "not_a_kind" rfl rfl).1

/-- C5: a batch of modal filters along a drawn line that crosses exactly 3
interior roads is recorded as one `batchAdd` command, places a filter on
exactly those 3 roads (all other roads untouched), and a single undo restores
the previous road list — and with it the previous cell partition — exactly. -/
theorem C5_batch_add_atomic_undo :
    ∀ (mm : MapModel) (nb : Neighbourhood) (line : List Pt) (k : FilterKind)
      (blocking : FilterKind → Bool),
      mm.Inv →
      (roadsCrossed line nb.interiorRoads mm.roads).length = 3 →
      (mm.addManyFilters line nb.interiorRoads k).log
          = mm.log.take mm.cursor
            ++ [Command.batchAdd (roadsCrossed line nb.interiorRoads mm.roads)
                  { kind := k, position := none }] ∧
      (∀ r ∈ roadsCrossed line nb.interiorRoads mm.roads,
        filterAt (mm.addManyFilters line nb.interiorRoads k).roads r
          = some { kind := k, position := none }) ∧
      (∀ r, r ∉ roadsCrossed line nb.interiorRoads mm.roads →
        filterAt (mm.addManyFilters line nb.interiorRoads k).roads r
          = filterAt mm.roads r) ∧
      (mm.addManyFilters line nb.interiorRoads k).undo.roads = mm.roads ∧
      computeCells (mm.addManyFilters line nb.interiorRoads k).undo.roads blocking
          nb.interiorRoads
        = computeCells mm.roads blocking nb.interiorRoads := by
  intro mm nb line k blocking hinv _
  have hroads : (mm.addManyFilters line nb.interiorRoads k).roads
      = (roadsCrossed line nb.interiorRoads mm.roads).foldl
          (fun acc r => setFilter acc r (some { kind := k, position := none })) mm.roads := rfl
  have hundo := undo_recordCommand hinv
    (Command.batchAdd (roadsCrossed line nb.interiorRoads mm.roads)
      { kind := k, position := none })
  have hur : (mm.addManyFilters line nb.interiorRoads k).undo.roads = mm.roads := hundo.1
  refine ⟨rfl, ?_, ?_, hur, ?_⟩
  · intro r hr
    rw [hroads]
    exact batch_mem hr mm.roads (mem_roadsCrossed_lt hr) _
  · intro r hr
    rw [hroads]
    exact batch_not_mem hr mm.roads _
  · rw [hur]

/-- Witness for C5: three parallel roads crossed by one drawn vertical line;
the batch places 3 filters and one undo restores the unfiltered state. -/
theorem C5_batch_add_atomic_undo_witness :
    (MapModel.init [(0, 0), (2, 0), (0, 2), (2, 2), (0, 4), (2, 4)]
        [{ src := 0, dst := 1, geometry := [(0, 0), (2, 0)], length := 2, tags := [],
           filter := none },
         { src := 2, dst := 3, geometry := [(0, 2), (2, 2)], length := 2, tags := [],
           filter := none },
         { src := 4, dst := 5, geometry := [(0, 4), (2, 4)], length := 2, tags := [],
           filter := none }]).Inv ∧
    (roadsCrossed [(1, -1), (1, 5)] [0, 1, 2]
        (MapModel.init [(0, 0), (2, 0), (0, 2), (2, 2), (0, 4), (2, 4)]
          [{ src := 0, dst := 1, geometry := [(0, 0), (2, 0)], length := 2, tags := [],
             filter := none },
           { src := 2, dst := 3, geometry := [(0, 2), (2, 2)], length := 2, tags := [],
             filter := none },
           { src := 4, dst := 5, geometry := [(0, 4), (2, 4)], length := 2, tags := [],
             filter := none }]).roads).length = 3 ∧
    ((MapModel.init [(0, 0), (2, 0), (0, 2), (2, 2), (0, 4), (2, 4)]
        [{ src := 0, dst := 1, geometry := [(0, 0), (2, 0)], length := 2, tags := [],
           filter := none },
         { src := 2, dst := 3, geometry := [(0, 2), (2, 2)], length := 2, tags := [],
           filter := none },
         { src := 4, dst := 5, geometry := [(0, 4), (2, 4)], length := 2, tags := [],
           filter := none }]).addManyFilters [(1, -1), (1, 5)] [0, 1, 2]
        FilterKind.fullClosure).undo.roads
      = (MapModel.init [(0, 0), (2, 0), (0, 2), (2, 2), (0, 4), (2, 4)]
          [{ src := 0, dst := 1, geometry := [(0, 0), (2, 0)], length := 2, tags := [],
             filter := none },
           { src := 2, dst := 3, geometry := [(0, 2), (2, 2)], length := 2, tags := [],
             filter := none },
           { src := 4, dst := 5, geometry := [(0, 4), (2, 4)], length := 2, tags := [],
             filter := none }]).roads := by
  refine ⟨Inv_init _ _, by decide, ?_⟩
  exact (C5_batch_add_atomic_undo
    (MapModel.init [(0, 0), (2, 0), (0, 2), (2, 2), (0, 4), (2, 4)]
      [{ src := 0, dst := 1, geometry := [(0, 0), (2, 0)], length := 2, tags := [],
         filter := none },
       { src := 2, dst := 3, geometry := [(0, 2), (2, 2)], length := 2, tags := [],
         filter := none },
       { src := 4, dst := 5, geometry := [(0, 4), (2, 4)], length := 2, tags := [],
         filter := none }])
    { boundary := [(-1, -2), (3, -2), (3, 5), (-1, 5)], interiorRoads := [0, 1, 2],
      boundaryRoads := [] }
    [(1, -1), (1, 5)] FilterKind.fullClosure blocksDriving (Inv_init _ _)
    (by decide)).2.2.2.1

theorem mapLoadSavefile_elim {mm : MapModel} {records : List SavefileRecord}
    {mm2 : MapModel} {ob : Option (List Pt)}
    (h : mapLoadSavefile mm records = some (mm2, ob)) :
    ∃ rds, decodeSavefile mm records = some (rds, ob) ∧
      mm2 = { mm with roads := rds, baseRoads := rds, log := [], cursor := 0 } := by
  unfold mapLoadSavefile at h
  cases hd : decodeSavefile mm records with
  | none => rw [hd] at h; cases h
  | some res =>
    rcases res with ⟨rds, ob2⟩
    rw [hd] at h
    have h2 : ({ mm with roads := rds, baseRoads := rds, log := [], cursor := 0 }, ob2)
        = (mm2, ob) := by simpa using h
    have h3 : mm2 = { mm with roads := rds, baseRoads := rds, log := [], cursor := 0 } :=
      (congrArg Prod.fst h2).symm
    have h4 : ob = ob2 := (congrArg Prod.snd h2).symm
    refine ⟨rds, ?_, h3⟩
    rw [h4]

theorem decodeSavefile_boundary_valid {mm : MapModel} {records : List SavefileRecord}
    {rds : List Road} {b : List Pt}
    (h : decodeSavefile mm records = some (rds, some b)) : polygonValid b = true := by
  refine decode_fold_boundary_valid mm records (clearFilters mm.roads, none) ?_ rds b h
  intro b2 hb2
  cases hb2

theorem loadSavefile_of_decode_none {st : LTN} {records : List SavefileRecord}
    (hm : mapLoadSavefile st.map records = none) :
    LTN.loadSavefile st records = .err st Err.malformedSavefile := by
  unfold LTN.loadSavefile
  rw [hm]

theorem loadSavefile_of_decode_noBoundary {st : LTN} {records : List SavefileRecord}
    {mm2 : MapModel} (hm : mapLoadSavefile st.map records = some (mm2, none)) :
    LTN.loadSavefile st records = .ok { map := mm2, neighbourhood := none } false := by
  unfold LTN.loadSavefile
  rw [hm]

theorem loadSavefile_of_decode_boundary {st : LTN} {records : List SavefileRecord}
    {mm2 : MapModel} {b : List Pt} (hm : mapLoadSavefile st.map records = some (mm2, some b))
    (hvalid : polygonValid b = true) :
    LTN.loadSavefile st records
      = .ok { map := mm2,
              neighbourhood := some { boundary := b,
                                      interiorRoads := interiorRoadIds mm2 b,
                                      boundaryRoads := boundaryRoadIds mm2 b } } true := by
  unfold LTN.loadSavefile
  rw [hm]
  show (match Neighbourhood.new mm2 b with
    | some nb => CallResult.ok { map := mm2, neighbourhood := some nb } true
    | none => CallResult.err { map := mm2, neighbourhood := none } Err.invalidBoundary) = _
  unfold Neighbourhood.new
  rw [if_pos hvalid]

/-- C6: whenever `load_savefile` fails, the failure is the decoder's
`MalformedSavefile` and the previously loaded state — the whole `LTN` struct,
filters and neighbourhood included — is returned unchanged; only the load is
aborted. -/
theorem C6_load_failure_leaves_state :
    ∀ (st : LTN) (records : List SavefileRecord) (st2 : LTN) (e : Err),
      LTN.loadSavefile st records = .err st2 e →
      st2 = st ∧ e = Err.malformedSavefile := by
  intro st records st2 e h
  cases hm : mapLoadSavefile st.map records with
  | none =>
    rw [loadSavefile_of_decode_none hm] at h
    cases h
    exact ⟨rfl, rfl⟩
  | some res =>
    rcases res with ⟨mm2, ob⟩
    cases ob with
    | none =>
      rw [loadSavefile_of_decode_noBoundary hm] at h
      cases h
    | some b =>
      rcases mapLoadSavefile_elim hm with ⟨rds, hdec, _⟩
      rw [loadSavefile_of_decode_boundary hm (decodeSavefile_boundary_valid hdec)] at h
      cases h

/-- Witness for C6: a savefile whose single record matches no road geometry
fails with `MalformedSavefile` and returns the state unchanged. -/
theorem C6_load_failure_leaves_state_witness :
    LTN.loadSavefile (LTN.new (MapModel.init [] []))
        [SavefileRecord.filterRec [(9, 9)] FilterKind.fullClosure none]
      = .err (LTN.new (MapModel.init [] [])) Err.malformedSavefile ∧
    (LTN.new (MapModel.init [] []) = LTN.new (MapModel.init [] []) ∧
      Err.malformedSavefile = Err.malformedSavefile) :=
  ⟨by decide,
   C6_load_failure_leaves_state (LTN.new (MapModel.init [] []))
     [SavefileRecord.filterRec [(9, 9)] FilterKind.fullClosure none]
     (LTN.new (MapModel.init [] [])) Err.malformedSavefile (by decide)⟩

/-- C9: the active neighbourhood is an explicit optional field: absent on
construction, replaced wholesale by `setNeighbourhood` (with the derived
classification of the given polygon), and after a successful load the return
value is true exactly when the savefile carried a boundary record — in which
case a fresh neighbourhood is installed — and false with the neighbourhood
cleared otherwise. -/
theorem C9_neighbourhood_lifecycle :
    (∀ mm : MapModel, (LTN.new mm).neighbourhood = none) ∧
    (∀ (st : LTN) (poly : List Pt) (st2 : LTN) (out : List (Nat × Option ModalFilter)),
      LTN.setNeighbourhood st poly = .ok st2 out →
      st2.map = st.map ∧
        st2.neighbourhood = some { boundary := poly,
                                   interiorRoads := interiorRoadIds st.map poly,
                                   boundaryRoads := boundaryRoadIds st.map poly }) ∧
    (∀ (st : LTN) (records : List SavefileRecord) (st2 : LTN) (b : Bool),
      LTN.loadSavefile st records = .ok st2 b →
      b = hasBoundaryRec records ∧
        (b = false → st2.neighbourhood = none) ∧
        (b = true → ∃ nb, st2.neighbourhood = some nb)) := by
  refine ⟨fun _ => rfl, ?_, ?_⟩
  · intro st poly st2 out h
    cases hn : Neighbourhood.new st.map poly with
    | none =>
      have hv : LTN.setNeighbourhood st poly = .err st Err.invalidBoundary := by
        unfold LTN.setNeighbourhood
        rw [hn]
      rw [hv] at h
      cases h
    | some nb =>
      have hnb : nb = { boundary := poly, interiorRoads := interiorRoadIds st.map poly,
                        boundaryRoads := boundaryRoadIds st.map poly } := by
        unfold Neighbourhood.new at hn
        by_cases hv : polygonValid poly = true
        · rw [if_pos hv] at hn
          exact (Option.some.inj hn).symm
        · rw [if_neg hv] at hn
          cases hn
      have hval : LTN.setNeighbourhood st poly
          = .ok { st with neighbourhood := some nb } (nb.toGj st.map) := by
        unfold LTN.setNeighbourhood
        rw [hn]
        show LTN.renderNeighbourhood { st with neighbourhood := some nb } = _
        unfold LTN.renderNeighbourhood
        rfl
      rw [hval] at h
      cases h
      exact ⟨rfl, by rw [hnb]⟩
  · intro st records st2 b h
    cases hm : mapLoadSavefile st.map records with
    | none =>
      rw [loadSavefile_of_decode_none hm] at h
      cases h
    | some res =>
      rcases res with ⟨mm2, ob⟩
      rcases mapLoadSavefile_elim hm with ⟨rds, hdec, _⟩
      have hhas : ob.isSome = hasBoundaryRec records := by
        have hfold := decode_fold_hasBoundary st.map records (clearFilters st.map.roads, none)
          rds ob hdec
        simpa using hfold
      cases ob with
      | none =>
        rw [loadSavefile_of_decode_noBoundary hm] at h
        cases h
        refine ⟨by simpa using hhas, fun _ => rfl, ?_⟩
        intro hf
        cases hf
      | some bd =>
        rw [loadSavefile_of_decode_boundary hm (decodeSavefile_boundary_valid hdec)] at h
        cases h
        refine ⟨by simpa using hhas, ?_, ?_⟩
        · intro hf
          cases hf
        · intro _
          exact ⟨_, rfl⟩

/-- Witness for C9: loading a savefile with no boundary record returns false
and clears the neighbourhood. -/
theorem C9_neighbourhood_lifecycle_witness :
    LTN.loadSavefile (LTN.new (MapModel.init [] [])) []
      = .ok (LTN.new (MapModel.init [] [])) false ∧
    (false = hasBoundaryRec ([] : List SavefileRecord) ∧
      (false = false → (LTN.new (MapModel.init [] [])).neighbourhood = none) ∧
      (false = true → ∃ nb, (LTN.new (MapModel.init [] [])).neighbourhood = some nb)) :=
  ⟨by decide,
   C9_neighbourhood_lifecycle.2.2 (LTN.new (MapModel.init [] [])) []
     (LTN.new (MapModel.init [] [])) false (by decide)⟩

/-- C1: decoding the savefile produced by encoding the current state restores
the filter set exactly (the live road list is reproduced) and reinstalls a
neighbourhood with the identical boundary polygon, and the call returns true
exactly when a neighbourhood was active. Hypotheses: road geometries are
pairwise distinct (the geometry/id correspondence the codec matches on) and
the active boundary, if any, is a valid polygon (as `setNeighbourhood`
guarantees). -/
theorem C1_savefile_roundtrip :
    ∀ st : LTN, (st.map.roads.map fun rd => rd.geometry).Nodup →
      (∀ nb, st.neighbourhood = some nb → polygonValid nb.boundary = true) →
      ∃ st2 : LTN,
        LTN.loadSavefile st (LTN.toSavefile st) = .ok st2 st.neighbourhood.isSome ∧
        st2.map.roads = st.map.roads ∧
        st2.neighbourhood.map Neighbourhood.boundary
          = st.neighbourhood.map Neighbourhood.boundary := by
  intro st hg hb
  have hdec : decodeSavefile st.map (mapToSavefile st.map st.neighbourhood)
      = some (st.map.roads, st.neighbourhood.map fun n => n.boundary) :=
    decodeSavefile_roundTrip st.map hg st.neighbourhood hb
  have hm : mapLoadSavefile st.map (LTN.toSavefile st)
      = some ({ st.map with roads := st.map.roads, baseRoads := st.map.roads,
                            log := [], cursor := 0 },
              st.neighbourhood.map fun n => n.boundary) := by
    unfold mapLoadSavefile LTN.toSavefile
    rw [hdec]
    rfl
  cases hnb : st.neighbourhood with
  | none =>
    rw [hnb] at hm
    refine ⟨{ map := { st.map with roads := st.map.roads, baseRoads := st.map.roads,
                                   log := [], cursor := 0 },
              neighbourhood := none }, ?_, rfl, ?_⟩
    · exact loadSavefile_of_decode_noBoundary hm
    · rfl
  | some nb =>
    rw [hnb] at hm
    have hvb : polygonValid nb.boundary = true := hb nb hnb
    refine ⟨{ map := { st.map with roads := st.map.roads, baseRoads := st.map.roads,
                                   log := [], cursor := 0 },
              neighbourhood := some { boundary := nb.boundary,
                                      interiorRoads := interiorRoadIds
                                        { st.map with roads := st.map.roads,
                                                      baseRoads := st.map.roads,
                                                      log := [], cursor := 0 } nb.boundary,
                                      boundaryRoads := boundaryRoadIds
                                        { st.map with roads := st.map.roads,
                                                      baseRoads := st.map.roads,
                                                      log := [], cursor := 0 } nb.boundary } },
      ?_, rfl, ?_⟩
    · exact loadSavefile_of_decode_boundary hm hvb
    · rfl

/-- Witness for C1: a map with one filtered road and an active neighbourhood
round-trips through the savefile. -/
theorem C1_savefile_roundtrip_witness :
    ((([{ src := 0, dst := 1, geometry := [(0, 0), (2, 0)], length := 2, tags := [],
          filter := some { kind := FilterKind.fullClosure, position := none } },
        { src := 1, dst := 2, geometry := [(2, 0), (2, 2)], length := 2, tags := [],
          filter := none }] : List Road).map fun rd => rd.geometry).Nodup) ∧
    ∃ st2 : LTN,
      LTN.loadSavefile
          { map := { intersections := [(0, 0), (2, 0), (2, 2)],
                     baseRoads := [{ src := 0, dst := 1, geometry := [(0, 0), (2, 0)],
                                     length := 2, tags := [], filter := none },
                                   { src := 1, dst := 2, geometry := [(2, 0), (2, 2)],
                                     length := 2, tags := [], filter := none }],
                     roads := [{ src := 0, dst := 1, geometry := [(0, 0), (2, 0)],
                                 length := 2, tags := [],
                                 filter := some { kind := FilterKind.fullClosure,
                                                  position := none } },
                               { src := 1, dst := 2, geometry := [(2, 0), (2, 2)],
                                 length := 2, tags := [], filter := none }],
                     log := [Command.addF 0 { kind := FilterKind.fullClosure,
                                              position := none }],
                     cursor := 1 },
            neighbourhood := some { boundary := [(-1, -1), (3, -1), (3, 3), (-1, 3)],
                                    interiorRoads := [0, 1], boundaryRoads := [] } }
          (LTN.toSavefile
            { map := { intersections := [(0, 0), (2, 0), (2, 2)],
                       baseRoads := [{ src := 0, dst := 1, geometry := [(0, 0), (2, 0)],
                                       length := 2, tags := [], filter := none },
                                     { src := 1, dst := 2, geometry := [(2, 0), (2, 2)],
                                       length := 2, tags := [], filter := none }],
                       roads := [{ src := 0, dst := 1, geometry := [(0, 0), (2, 0)],
                                   length := 2, tags := [],
                                   filter := some { kind := FilterKind.fullClosure,
                                                    position := none } },
                                 { src := 1, dst := 2, geometry := [(2, 0), (2, 2)],
                                   length := 2, tags := [], filter := none }],
                       log := [Command.addF 0 { kind := FilterKind.fullClosure,
                                                position := none }],
                       cursor := 1 },
              neighbourhood := some { boundary := [(-1, -1), (3, -1), (3, 3), (-1, 3)],
                                      interiorRoads := [0, 1], boundaryRoads := [] } })
        = .ok st2 true ∧
      st2.map.roads = [{ src := 0, dst := 1, geometry := [(0, 0), (2, 0)], length := 2,
                         tags := [],
                         filter := some { kind := FilterKind.fullClosure,
                                          position := none } },
                       { src := 1, dst := 2, geometry := [(2, 0), (2, 2)], length := 2,
                         tags := [], filter := none }] ∧
      st2.neighbourhood.map Neighbourhood.boundary
        = some [(-1, -1), (3, -1), (3, 3), (-1, 3)] := by
  refine ⟨by decide, ?_⟩
  exact C1_savefile_roundtrip
    { map := { intersections := [(0, 0), (2, 0), (2, 2)],
               baseRoads := [{ src := 0, dst := 1, geometry := [(0, 0), (2, 0)],
                               length := 2, tags := [], filter := none },
                             { src := 1, dst := 2, geometry := [(2, 0), (2, 2)],
                               length := 2, tags := [], filter := none }],
               roads := [{ src := 0, dst := 1, geometry := [(0, 0), (2, 0)],
                           length := 2, tags := [],
                           filter := some { kind := FilterKind.fullClosure,
                                            position := none } },
                         { src := 1, dst := 2, geometry := [(2, 0), (2, 2)],
                           length := 2, tags := [], filter := none }],
               log := [Command.addF 0 { kind := FilterKind.fullClosure, position := none }],
               cursor := 1 },
      neighbourhood := some { boundary := [(-1, -1), (3, -1), (3, 3), (-1, 3)],
                              interiorRoads := [0, 1], boundaryRoads := [] } }
    (by decide) (by intro nb hnb; cases hnb; decide)

theorem interiorRoadIds_nodup (mm : MapModel) (poly : List Pt) :
    (interiorRoadIds mm poly).Nodup :=
  List.Nodup.filter _ (List.nodup_range _)

theorem Neighbourhood.new_interior_nodup {mm : MapModel} {poly : List Pt}
    {nb : Neighbourhood} (h : Neighbourhood.new mm poly = some nb) :
    nb.interiorRoads.Nodup := by
  unfold Neighbourhood.new at h
  by_cases hv : polygonValid poly = true
  · rw [if_pos hv] at h
    have hnb := Option.some.inj h
    rw [← hnb]
    exact interiorRoadIds_nodup mm poly
  · rw [if_neg hv] at h
    cases h

/-- C3: for every graph, neighbourhood (as classified from a boundary
polygon) and filter set (carried on the roads, with any blocking mode), the
computed cells partition the interior road set exactly — every interior road
lies in its own cell and in no other — and two interior roads share a cell
precisely when a filter-respecting path of interior roads connects them. -/
theorem C3_cells_partition :
    ∀ (mm : MapModel) (poly : List Pt) (nb : Neighbourhood) (blocking : FilterKind → Bool),
      Neighbourhood.new mm poly = some nb →
      (∀ r ∈ nb.interiorRoads,
        (r ∈ cellOf mm.roads blocking nb.interiorRoads r ∧
          cellOf mm.roads blocking nb.interiorRoads r
            ∈ computeCells mm.roads blocking nb.interiorRoads) ∧
        (∀ c1 c2, c1 ∈ computeCells mm.roads blocking nb.interiorRoads →
          c2 ∈ computeCells mm.roads blocking nb.interiorRoads →
          r ∈ c1 → r ∈ c2 → c1 = c2)) ∧
      (∀ r1 r2, r1 ∈ nb.interiorRoads → r2 ∈ nb.interiorRoads →
        ((∃ c ∈ computeCells mm.roads blocking nb.interiorRoads, r1 ∈ c ∧ r2 ∈ c) ↔
          ConnectsVia mm.roads blocking nb.interiorRoads r1 r2)) := by
  intro mm poly nb blocking hnew
  have hv : nb.interiorRoads.Nodup := Neighbourhood.new_interior_nodup hnew
  constructor
  · intro r hr
    refine ⟨⟨mem_cellOf.2 ⟨hr, reachableB_self r⟩, cellOf_mem_cells hr⟩, ?_⟩
    intro c1 c2 hc1 hc2 hr1 hr2
    rw [cell_unique hv hc1 hr1, cell_unique hv hc2 hr2]
  · intro r1 r2 hr1 hr2
    constructor
    · rintro ⟨c, hc, hm1, hm2⟩
      rcases mem_cells_elim hc with ⟨r0, hr0, rfl⟩
      rcases mem_cellOf.1 hm1 with ⟨_, hb1⟩
      rcases mem_cellOf.1 hm2 with ⟨_, hb2⟩
      have h01 : Reaches (roadAdj mm.roads blocking) nb.interiorRoads r0 r1 :=
        (reachableB_iff hv).1 hb1
      have h02 : Reaches (roadAdj mm.roads blocking) nb.interiorRoads r0 r2 :=
        (reachableB_iff hv).1 hb2
      have h12 : Reaches (roadAdj mm.roads blocking) nb.interiorRoads r1 r2 :=
        (Reaches.symm_of (roadAdj_symm mm.roads blocking) hr0 h01).trans h02
      exact reaches_connectsVia hr1 h12
    · intro h
      have h12 : Reaches (roadAdj mm.roads blocking) nb.interiorRoads r1 r2 :=
        connectsVia_reaches h
      exact ⟨cellOf mm.roads blocking nb.interiorRoads r1, cellOf_mem_cells hr1,
        mem_cellOf.2 ⟨hr1, reachableB_self r1⟩,
        mem_cellOf.2 ⟨hr2, (reachableB_iff hv).2 h12⟩⟩

/-- Witness for C3: a two-road corner network inside a square boundary; the
partition and path-connectivity facts are instantiated through the theorem. -/
theorem C3_cells_partition_witness :
    Neighbourhood.new
        (MapModel.init [(0, 0), (2, 0), (2, 2)]
          [{ src := 0, dst := 1, geometry := [(0, 0), (2, 0)], length := 2, tags := [],
             filter := none },
           { src := 1, dst := 2, geometry := [(2, 0), (2, 2)], length := 2, tags := [],
             filter := none }])
        [(-1, -1), (3, -1), (3, 3), (-1, 3)]
      = some { boundary := [(-1, -1), (3, -1), (3, 3), (-1, 3)],
               interiorRoads := [0, 1], boundaryRoads := [] } ∧
    (∀ r1 r2, r1 ∈ [0, 1] → r2 ∈ [0, 1] →
      ((∃ c ∈ computeCells
            (MapModel.init [(0, 0), (2, 0), (2, 2)]
              [{ src := 0, dst := 1, geometry := [(0, 0), (2, 0)], length := 2, tags := [],
                 filter := none },
               { src := 1, dst := 2, geometry := [(2, 0), (2, 2)], length := 2, tags := [],
                 filter := none }]).roads blocksDriving [0, 1], r1 ∈ c ∧ r2 ∈ c) ↔
        ConnectsVia
          (MapModel.init [(0, 0), (2, 0), (2, 2)]
            [{ src := 0, dst := 1, geometry := [(0, 0), (2, 0)], length := 2, tags := [],
               filter := none },
             { src := 1, dst := 2, geometry := [(2, 0), (2, 2)], length := 2, tags := [],
               filter := none }]).roads blocksDriving [0, 1] r1 r2)) := by
  refine ⟨by decide, ?_⟩
  have h := C3_cells_partition
    (MapModel.init [(0, 0), (2, 0), (2, 2)]
      [{ src := 0, dst := 1, geometry := [(0, 0), (2, 0)], length := 2, tags := [],
         filter := none },
       { src := 1, dst := 2, geometry := [(2, 0), (2, 2)], length := 2, tags := [],
         filter := none }])
    [(-1, -1), (3, -1), (3, 3), (-1, 3)]
    { boundary := [(-1, -1), (3, -1), (3, 3), (-1, 3)], interiorRoads := [0, 1],
      boundaryRoads := [] }
    blocksDriving (by decide)
  exact h.2

/-- C4: (i) for every pair of endpoints the unfiltered search never returns a
longer distance than the filtered search; (ii) when the base network is
connected, the unfiltered search succeeds (so a filtered `NoRoute` never
means the comparison is impossible); (iii) `compareRoute` runs both searches
and reports each side independently — its two components are exactly the two
searches, whatever either returns. -/
theorem C4_router_monotone_and_total :
    (∀ (mm : MapModel) (blocking : FilterKind → Bool) (s t df : Nat),
      shortestPath mm blocking s t true = some df →
      ∃ du, shortestPath mm blocking s t false = some du ∧ du ≤ df) ∧
    (∀ (mm : MapModel) (blocking : FilterKind → Bool) (s t : Nat),
      BaseConnected mm → s < mm.intersections.length → t < mm.intersections.length →
      (shortestPath mm blocking s t false).isSome = true) ∧
    (∀ (mm : MapModel) (blocking : FilterKind → Bool) (s t : Nat),
      mm.compareRoute blocking s t
        = (shortestPath mm blocking s t true, shortestPath mm blocking s t false)) := by
  refine ⟨?_, ?_, fun _ _ _ _ => rfl⟩
  · intro mm blocking s t df hf
    have hsub : (usableRoads mm.roads blocking true).Sublist
        (usableRoads mm.roads blocking false) := by
      show (mm.roads.filter fun rd => !roadBlocked blocking rd).Sublist mm.roads
      exact List.filter_sublist mm.roads
    have hmono := bellman_mono_sublist hsub s (mm.intersections.length + 1) t
    rcases hmono df hf with ⟨du, hdu, hle⟩
    exact ⟨du, hdu, hle⟩
  · intro mm blocking s t hconn hs ht
    have hreach : Reaches (interAdjFull mm.roads)
        (List.range mm.intersections.length) s t := hconn s t hs ht
    show ((bellman (usableRoads mm.roads blocking false) s
        (mm.intersections.length + 1)) t).isSome = true
    exact bellman_some_of_reaches hreach

/-- Witness for C4 on a triangle network: with the direct road filtered, the
filtered search detours (length 7) while the unfiltered search takes the
direct road (length 5); on a filtered-off single road the unfiltered search
still succeeds because the base network is connected. -/
theorem C4_router_monotone_and_total_witness :
    (shortestPath
        (MapModel.init [(0, 0), (5, 0), (0, 3)]
          [{ src := 0, dst := 1, geometry := [(0, 0), (5, 0)], length := 5, tags := [],
             filter := some { kind := FilterKind.fullClosure, position := none } },
           { src := 0, dst := 2, geometry := [(0, 0), (0, 3)], length := 3, tags := [],
             filter := none },
           { src := 2, dst := 1, geometry := [(0, 3), (5, 0)], length := 4, tags := [],
             filter := none }])
        blocksDriving 0 1 true = some 7) ∧
    (∃ du, shortestPath
        (MapModel.init [(0, 0), (5, 0), (0, 3)]
          [{ src := 0, dst := 1, geometry := [(0, 0), (5, 0)], length := 5, tags := [],
             filter := some { kind := FilterKind.fullClosure, position := none } },
           { src := 0, dst := 2, geometry := [(0, 0), (0, 3)], length := 3, tags := [],
             filter := none },
           { src := 2, dst := 1, geometry := [(0, 3), (5, 0)], length := 4, tags := [],
             filter := none }])
        blocksDriving 0 1 false = some du ∧ du ≤ 7) ∧
    ((shortestPath
        (MapModel.init [(0, 0), (3, 0)]
          [{ src := 0, dst := 1, geometry := [(0, 0), (3, 0)], length := 3, tags := [],
             filter := some { kind := FilterKind.fullClosure, position := none } }])
        blocksDriving 0 1 false).isSome = true) := by
  refine ⟨by decide, ?_, ?_⟩
  · exact (C4_router_monotone_and_total.1
      (MapModel.init [(0, 0), (5, 0), (0, 3)]
        [{ src := 0, dst := 1, geometry := [(0, 0), (5, 0)], length := 5, tags := [],
           filter := some { kind := FilterKind.fullClosure, position := none } },
         { src := 0, dst := 2, geometry := [(0, 0), (0, 3)], length := 3, tags := [],
           filter := none },
         { src := 2, dst := 1, geometry := [(0, 3), (5, 0)], length := 4, tags := [],
           filter := none }])
      blocksDriving 0 1 7 (by decide))
  · refine C4_router_monotone_and_total.2.1
      (MapModel.init [(0, 0), (3, 0)]
        [{ src := 0, dst := 1, geometry := [(0, 0), (3, 0)], length := 3, tags := [],
           filter := some { kind := FilterKind.fullClosure, position := none } }])
      blocksDriving 0 1 ?_ (by decide) (by decide)
    intro i j hi hj
    have hi2 : i < 2 := hi
    have hj2 : j < 2 := hj
    interval_cases i <;> interval_cases j
    · exact Reaches.refl 0
    · exact Reaches.tail (Reaches.refl 0) (by decide) (by decide)
    · exact Reaches.tail (Reaches.refl 1) (by decide) (by decide)
    · exact Reaches.refl 1
